import Mathlib

/-!
# POV-Ray plane primitive (`source/backend/shape/planes.cpp`)

A shallow embedding of `Plane` and its member functions, followed by the
properties established about them.

Modelling conventions

* `DBL` is modelled by an arbitrary linearly ordered field `K` (exact
  arithmetic).  Every statement therefore holds over the reals, and the
  definitions can be evaluated over the rationals.
* `TRANSFORM` is an abstract type `T`; the functions of
  `backend/math/matrices.h` that `planes.cpp` calls are the fields of
  `MatrixOps`.
* The constants of `backend/frame.h` that `planes.cpp` reads (`EPSILON`,
  `MAX_DISTANCE`, `BOUND_HUGE`) are the fields of `FrameConsts`.
* `sqrt` (used by `Vector3d::length`) is a parameter.
* Out-parameters and the per-thread statistics are passed explicitly.
* The mutators are embedded on plane values (`Trans` holds the transform
  itself).  For `Copy`, which is about who owns the `TRANSFORM`, planes are
  also embedded as objects whose `Trans` is an address into a memory of
  transforms; `Plane.deref` relates the two.
-/

namespace pov

/-! ## Data model -/

/-- Three-component vector, the `Vector3d` of `backend/math/vector.h`. -/
structure Vector3d (K : Type) where
  x : K
  y : K
  z : K
deriving DecidableEq

/-- Ray as seen by `Intersect`: the `BasicRay` with its two public members. -/
structure BasicRay (K : Type) where
  Origin : Vector3d K
  Direction : Vector3d K
deriving DecidableEq

/-- Axis-aligned box of `backend/bounding/bbox.h`: lower corner and side lengths. -/
structure BoundingBox (K : Type) where
  lowerLeft : Vector3d K
  size : Vector3d K
deriving DecidableEq

/-- The part of `ObjectBase` that `planes.cpp` reads from a clip object
(`Clip[0]->BBox`); `tag` stands for the rest of the object. -/
structure ClipObject (K : Type) where
  BBox : BoundingBox K
  tag : Nat
deriving DecidableEq

/-- The members of `Plane` (its own and those inherited from `ObjectBase`)
that `planes.cpp` touches.  `Trans = none` is the C++ `Trans == NULL`. -/
structure Plane (K T : Type) where
  Normal_Vector : Vector3d K
  Distance : K
  Trans : Option T
  Clip : List (ClipObject K)
  BBox : BoundingBox K
deriving DecidableEq

/-- Record pushed on the intersection stack: `Intersection(Depth, IPoint, this)`. -/
structure Intersection (K T : Type) where
  Depth : K
  IPoint : Vector3d K
  Object : Plane K T
deriving DecidableEq

/-- Indices of the per-thread statistics array; `Other` stands for every
counter that `planes.cpp` does not name. -/
inductive IntStatsIndex where
  | Ray_Plane_Tests
  | Ray_Plane_Tests_Succeeded
  | Other (n : Nat)
deriving DecidableEq

/-- The statistics array `Thread->Stats()`: one unbounded counter per index. -/
abbrev Stats := IntStatsIndex → Nat

/-- The statement `Stats()[i]++`. -/
def Stats.incr (s : Stats) (i : IntStatsIndex) : Stats :=
  fun j => if j = i then s j + 1 else s j

/-- Constants of `backend/frame.h` used by `planes.cpp`. -/
structure FrameConsts (K : Type) where
  EPSILON : K
  MAX_DISTANCE : K
  BOUND_HUGE : K

/-- Functions of `backend/math/matrices.h` used by `planes.cpp`, with the
result passed back instead of written through the first argument. -/
structure MatrixOps (K T : Type) where
  MInvTransPoint : Vector3d K → T → Vector3d K
  MInvTransDirection : Vector3d K → T → Vector3d K
  MTransDirection : Vector3d K → T → Vector3d K
  MTransNormal : Vector3d K → T → Vector3d K
  Create_Transform : T
  Compose_Transforms : T → T → T
  Copy_Transform : T → T

section Embedding

variable {K T : Type} [LinearOrderedField K]

/-! ## Vector operations (`backend/math/vector.h`) -/

/-- The function `dot(a, b)`. -/
def dot (a b : Vector3d K) : K :=
  a.x * b.x + a.y * b.y + a.z * b.z

/-- Operator `a + b`. -/
def Vector3d.add (a b : Vector3d K) : Vector3d K :=
  ⟨a.x + b.x, a.y + b.y, a.z + b.z⟩

/-- Operator `a * s` with a scalar. -/
def Vector3d.smul (a : Vector3d K) (s : K) : Vector3d K :=
  ⟨a.x * s, a.y * s, a.z * s⟩

/-- Operator `a * b`, component-wise. -/
def Vector3d.mulv (a b : Vector3d K) : Vector3d K :=
  ⟨a.x * b.x, a.y * b.y, a.z * b.z⟩

/-- Operator `a /= b` with a vector: component-wise division. -/
def Vector3d.divv (a b : Vector3d K) : Vector3d K :=
  ⟨a.x / b.x, a.y / b.y, a.z / b.z⟩

/-- Operator `a /= s` with a scalar. -/
def Vector3d.divs (a : Vector3d K) (s : K) : Vector3d K :=
  ⟨a.x / s, a.y / s, a.z / s⟩

/-- Member `invert()`: negates every component. -/
def Vector3d.invert (a : Vector3d K) : Vector3d K :=
  ⟨-a.x, -a.y, -a.z⟩

/-- Member `length()`: the square root of the sum of the squared components. -/
def Vector3d.length (sqrt : K → K) (a : Vector3d K) : K :=
  sqrt (a.x * a.x + a.y * a.y + a.z * a.z)

/-- Member `normalize()`: divides the vector by its own length. -/
def Vector3d.normalize (sqrt : K → K) (a : Vector3d K) : Vector3d K :=
  a.divs (a.length sqrt)

/-- Member `Evaluate(depth)` of a ray: `Origin + Direction * depth`. -/
def BasicRay.Evaluate (ray : BasicRay K) (depth : K) : Vector3d K :=
  ray.Origin.add (ray.Direction.smul depth)

/-! ## `planes.cpp` -/

/-- The file-level constant `DEPTH_TOLERANCE = 1.0e-6`. -/
def DEPTH_TOLERANCE : K := 1 / 1000000

/-- Outcome of `Plane::Intersect`: the returned flag, the content of the
out-parameter `*Depth` after the call, and the statistics after the call. -/
structure IntersectResult (K : Type) where
  hit : Bool
  Depth : K
  Thread : Stats

/-- The function `Plane::Intersect`.  `Depth` is the content of `*Depth`
before the call, `Thread` the statistics before the call. -/
def Plane.Intersect (F : FrameConsts K) (M : MatrixOps K T) (pl : Plane K T)
    (ray : BasicRay K) (Depth : K) (Thread : Stats) : IntersectResult K :=
  let Thread := Thread.incr IntStatsIndex.Ray_Plane_Tests
  let dots : Option (K × K) :=
    match pl.Trans with
    | none =>
      let NormalDotDirection := dot pl.Normal_Vector ray.Direction
      if |NormalDotDirection| < F.EPSILON then none
      else some (dot pl.Normal_Vector ray.Origin, NormalDotDirection)
    | some Trans =>
      let P := M.MInvTransPoint ray.Origin Trans
      let D := M.MInvTransDirection ray.Direction Trans
      let NormalDotDirection := dot pl.Normal_Vector D
      if |NormalDotDirection| < F.EPSILON then none
      else some (dot pl.Normal_Vector P, NormalDotDirection)
  match dots with
  | none => ⟨false, Depth, Thread⟩
  | some (NormalDotOrigin, NormalDotDirection) =>
    let Depth := -(NormalDotOrigin + pl.Distance) / NormalDotDirection
    if DEPTH_TOLERANCE ≤ Depth ∧ Depth ≤ F.MAX_DISTANCE then
      ⟨true, Depth, Thread.incr IntStatsIndex.Ray_Plane_Tests_Succeeded⟩
    else
      ⟨false, Depth, Thread⟩

/-- Outcome of `Plane::All_Intersections`: the returned flag, the
intersection stack (top first) and the statistics after the call. -/
structure AllIntersectionsResult (K T : Type) where
  found : Bool
  Depth_Stack : List (Intersection K T)
  Thread : Stats

/-- The function `Plane::All_Intersections`.  `PointInClip` is the external
`Point_In_Clip` (it receives the thread data and may update it); `Depth0`
is the indeterminate initial content of the local `Depth`. -/
def Plane.All_Intersections (F : FrameConsts K) (M : MatrixOps K T)
    (PointInClip : Vector3d K → List (ClipObject K) → Stats → Bool × Stats)
    (pl : Plane K T) (ray : BasicRay K) (Depth_Stack : List (Intersection K T))
    (Depth0 : K) (Thread : Stats) : AllIntersectionsResult K T :=
  let r := pl.Intersect F M ray Depth0 Thread
  if r.hit then
    let IPoint := ray.Evaluate r.Depth
    if pl.Clip.isEmpty then
      ⟨true, ⟨r.Depth, IPoint, pl⟩ :: Depth_Stack, r.Thread⟩
    else
      let c := PointInClip IPoint pl.Clip r.Thread
      if c.1 then ⟨true, ⟨r.Depth, IPoint, pl⟩ :: Depth_Stack, c.2⟩
      else ⟨false, Depth_Stack, c.2⟩
  else
    ⟨false, Depth_Stack, r.Thread⟩

/-- The function `Plane::Inside` (the thread data is not used). -/
def Plane.Inside (F : FrameConsts K) (M : MatrixOps K T) (pl : Plane K T)
    (IPoint : Vector3d K) : Bool :=
  let Temp :=
    match pl.Trans with
    | none => dot IPoint pl.Normal_Vector
    | some Trans => dot (M.MInvTransPoint IPoint Trans) pl.Normal_Vector
  decide (Temp + pl.Distance < F.EPSILON)

/-- The function `Plane::Normal`.  Its second parameter, the intersection
record, is unnamed in the source and never read; it is kept as `_Inter`. -/
def Plane.Normal (sqrt : K → K) (M : MatrixOps K T) (pl : Plane K T)
    (_Inter : Intersection K T) : Vector3d K :=
  let Result := pl.Normal_Vector
  match pl.Trans with
  | none => Result
  | some Trans => (M.MTransNormal Result Trans).normalize sqrt

/-- The function `Plane::Compute_BBox`: `Make_BBox` with the huge bounds, then
the box of the first clip object when there is one. -/
def Plane.Compute_BBox (F : FrameConsts K) (pl : Plane K T) : Plane K T :=
  let BBox : BoundingBox K :=
    ⟨⟨-F.BOUND_HUGE / 2, -F.BOUND_HUGE / 2, -F.BOUND_HUGE / 2⟩,
     ⟨F.BOUND_HUGE, F.BOUND_HUGE, F.BOUND_HUGE⟩⟩
  match pl.Clip with
  | [] => { pl with BBox := BBox }
  | c :: _ => { pl with BBox := c.BBox }

/-- The function `Plane::Transform`. -/
def Plane.Transform (F : FrameConsts K) (M : MatrixOps K T) (pl : Plane K T)
    (tr : T) : Plane K T :=
  let Trans : T :=
    match pl.Trans with
    | none => M.Create_Transform
    | some t => t
  Plane.Compute_BBox F { pl with Trans := some (M.Compose_Transforms Trans tr) }

/-- The function `Plane::Translate`. -/
def Plane.Translate (F : FrameConsts K) (M : MatrixOps K T) (pl : Plane K T)
    (Vector : Vector3d K) (tr : T) : Plane K T :=
  match pl.Trans with
  | none =>
    Plane.Compute_BBox F
      { pl with Distance := pl.Distance - dot pl.Normal_Vector Vector }
  | some _ => pl.Transform F M tr

/-- The function `Plane::Rotate`; the vector argument is unnamed and unused. -/
def Plane.Rotate (F : FrameConsts K) (M : MatrixOps K T) (pl : Plane K T)
    (_Vector : Vector3d K) (tr : T) : Plane K T :=
  match pl.Trans with
  | none =>
    Plane.Compute_BBox F
      { pl with Normal_Vector := M.MTransDirection pl.Normal_Vector tr }
  | some _ => pl.Transform F M tr

/-- The function `Plane::Scale`. -/
def Plane.Scale (sqrt : K → K) (F : FrameConsts K) (M : MatrixOps K T)
    (pl : Plane K T) (Vector : Vector3d K) (tr : T) : Plane K T :=
  match pl.Trans with
  | none =>
    let Normal_Vector := pl.Normal_Vector.divv Vector
    let Length := Normal_Vector.length sqrt
    Plane.Compute_BBox F
      { pl with Normal_Vector := Normal_Vector.divs Length,
                Distance := pl.Distance / Length }
  | some _ => pl.Transform F M tr

/-- The function `Plane::Invert`. -/
def Plane.Invert (pl : Plane K T) : Plane K T :=
  { pl with Normal_Vector := pl.Normal_Vector.invert,
            Distance := pl.Distance * (-1) }

/-- The constructor `Plane::Plane()`.  The members set by the `ObjectBase`
constructor are arguments: the clip list is empty, the box is whatever
`ObjectBase` leaves there. -/
def Plane.new (BBox : BoundingBox K) : Plane K T :=
  { Normal_Vector := ⟨0, 1, 0⟩, Distance := 0, Trans := none, Clip := [], BBox := BBox }

/-! ## Quantities named by the specification -/

/-- Ray origin in the local space of the plane: the origin itself without a
transform, its image under the inverse point map otherwise. -/
def Plane.localOrigin (M : MatrixOps K T) (pl : Plane K T) (ray : BasicRay K) : Vector3d K :=
  match pl.Trans with
  | none => ray.Origin
  | some Trans => M.MInvTransPoint ray.Origin Trans

/-- Ray direction in the local space of the plane. -/
def Plane.localDirection (M : MatrixOps K T) (pl : Plane K T) (ray : BasicRay K) : Vector3d K :=
  match pl.Trans with
  | none => ray.Direction
  | some Trans => M.MInvTransDirection ray.Direction Trans

/-- Point in the local space of the plane. -/
def Plane.localPoint (M : MatrixOps K T) (pl : Plane K T) (P : Vector3d K) : Vector3d K :=
  match pl.Trans with
  | none => P
  | some Trans => M.MInvTransPoint P Trans

/-- Depth named by the specification: `-(dot(n, o) + d) / dot(n, v)` on the
local ray. -/
def Plane.specDepth (M : MatrixOps K T) (pl : Plane K T) (ray : BasicRay K) : K :=
  -(dot pl.Normal_Vector (pl.localOrigin M ray) + pl.Distance)
    / dot pl.Normal_Vector (pl.localDirection M ray)

end Embedding

/-! ## Concrete instances on which the definitions are evaluated -/

/-- Sample values for the constants of `frame.h`:
`EPSILON = 1.0e-10`, `MAX_DISTANCE = 1.0e7`, `BOUND_HUGE = 2.0e10`. -/
def sampleFrame : FrameConsts ℚ :=
  ⟨1 / 10000000000, 10000000, 20000000000⟩

/-- A small instance of the transform interface: a transform is a translation
vector `t`, mapping a point `P` to `P + t` and leaving directions and normals
alone; composition adds the vectors. -/
def translationOps : MatrixOps ℚ (Vector3d ℚ) where
  MInvTransPoint := fun P t => ⟨P.x - t.x, P.y - t.y, P.z - t.z⟩
  MInvTransDirection := fun D _ => D
  MTransDirection := fun D _ => D
  MTransNormal := fun N _ => N
  Create_Transform := ⟨0, 0, 0⟩
  Compose_Transforms := fun a b => a.add b
  Copy_Transform := fun t => t

/-- A clip predicate for evaluation: the point must have `x ≤ 0`; the
statistics are passed through. -/
def sampleClip : Vector3d ℚ → List (ClipObject ℚ) → Stats → Bool × Stats :=
  fun P _ st => (decide (P.x ≤ 0), st)

/-- The unbounded box that `Compute_BBox` builds from `sampleFrame`. -/
def sampleBox : BoundingBox ℚ :=
  ⟨⟨-10000000000, -10000000000, -10000000000⟩, ⟨20000000000, 20000000000, 20000000000⟩⟩

/-- The plane built by the constructor, over the rationals. -/
def defaultPlane : Plane ℚ (Vector3d ℚ) := Plane.new sampleBox

/-- The ray from `(0,5,0)` straight down. -/
def downRay : BasicRay ℚ := ⟨⟨0, 5, 0⟩, ⟨0, -1, 0⟩⟩

/-- All counters at zero. -/
def zeroStats : Stats := fun _ => 0

/-- The plane `y = 2` facing up: normal `(0,1,0)`, distance `-2`, no transform. -/
def raisedPlane : Plane ℚ (Vector3d ℚ) :=
  { Normal_Vector := ⟨0, 1, 0⟩, Distance := -2, Trans := none, Clip := [], BBox := sampleBox }

/-- The constructor plane carrying the transform "translate by `(0,2,0)`". -/
def movedPlane : Plane ℚ (Vector3d ℚ) :=
  { Normal_Vector := ⟨0, 1, 0⟩, Distance := 0, Trans := some ⟨0, 2, 0⟩, Clip := [],
    BBox := sampleBox }

/-- A small box, used as the box of a clip object. -/
def clipBox : BoundingBox ℚ := ⟨⟨0, 0, 0⟩, ⟨1, 1, 1⟩⟩

/-- A plane whose clip list has two objects (boxes `clipBox` and `sampleBox`)
and whose own box is still the unbounded one from before the clip list was
filled. -/
def clippedPlane : Plane ℚ (Vector3d ℚ) :=
  { Normal_Vector := ⟨0, 1, 0⟩, Distance := 0, Trans := none,
    Clip := [⟨clipBox, 0⟩, ⟨sampleBox, 1⟩], BBox := sampleBox }

/-! ## Reachability by the direct mutators -/

/-- Planes reachable from the constructor by `Translate`, `Invert`, `Scale`
and `Rotate`, with the side conditions of the unit-normal invariant: the
scale vector has no zero component and `sqrt` is the non-negative square
root at the value `Scale` passes to it; the rotation's direction mapping
preserves squared length. -/
inductive Plane.DirectReachable {K T : Type} [LinearOrderedField K]
    (sqrt : K → K) (F : FrameConsts K) (M : MatrixOps K T) : Plane K T → Prop
  | new (bb : BoundingBox K) : Plane.DirectReachable sqrt F M (Plane.new bb)
  | translate {p : Plane K T} (v : Vector3d K) (tr : T) :
      Plane.DirectReachable sqrt F M p → Plane.DirectReachable sqrt F M (p.Translate F M v tr)
  | invert {p : Plane K T} :
      Plane.DirectReachable sqrt F M p → Plane.DirectReachable sqrt F M p.Invert
  | scale {p : Plane K T} (s : Vector3d K) (tr : T) :
      s.x ≠ 0 → s.y ≠ 0 → s.z ≠ 0 →
      0 ≤ (p.Normal_Vector.divv s).length sqrt →
      (p.Normal_Vector.divv s).length sqrt * (p.Normal_Vector.divv s).length sqrt =
        dot (p.Normal_Vector.divv s) (p.Normal_Vector.divv s) →
      Plane.DirectReachable sqrt F M p → Plane.DirectReachable sqrt F M (p.Scale sqrt F M s tr)
  | rotate {p : Plane K T} (v : Vector3d K) (tr : T) :
      (∀ a : Vector3d K, dot (M.MTransDirection a tr) (M.MTransDirection a tr) = dot a a) →
      Plane.DirectReachable sqrt F M p → Plane.DirectReachable sqrt F M (p.Rotate F M v tr)

/-! ## Plane objects in memory

`Copy` is about ownership of the `TRANSFORM` a plane points to, so it is
embedded on plane objects whose `Trans` member is an address: a `Plane K Nat`
together with the memory holding the `TRANSFORM` objects, a list indexed by
address.  `Plane.deref` reads such an object as the plane value used by the
functions above. -/

/-- The plane value an object denotes: its `Trans` address is replaced by the
`TRANSFORM` stored there.  There is no value when the address is not
allocated. -/
def Plane.deref {K T : Type} (heap : List T) (p : Plane K Nat) : Option (Plane K T) :=
  match p.Trans with
  | none => some ⟨p.Normal_Vector, p.Distance, none, p.Clip, p.BBox⟩
  | some a =>
    match heap[a]? with
    | none => none
    | some t => some ⟨p.Normal_Vector, p.Distance, some t, p.Clip, p.BBox⟩

/-- The function `Plane::Copy`: `*New = *this` copies every member, then
`New->Trans = Copy_Transform(Trans)` points the copy to a newly allocated
`TRANSFORM` holding `Copy_Transform` of the original one (NULL stays NULL).
Returns the new object and the memory after the allocation; there is no
result when `Trans` is not an allocated address. -/
def Plane.Copy {K T : Type} (M : MatrixOps K T) (heap : List T) (p : Plane K Nat) :
    Option (Plane K Nat × List T) :=
  match p.Trans with
  | none => some ({ p with Trans := none }, heap)
  | some a =>
    match heap[a]? with
    | none => none
    | some t => some ({ p with Trans := some heap.length }, heap ++ [M.Copy_Transform t])

/-- The function `Plane::Translate` on an object in memory.  In the transform
branch, `Transform(tr)` calls `Compose_Transforms(Trans, tr)`, which
overwrites the `TRANSFORM` that `Trans` points to, and then `Compute_BBox()`. -/
def Plane.TranslateAt {K T : Type} [LinearOrderedField K] (F : FrameConsts K)
    (M : MatrixOps K T) (heap : List T) (p : Plane K Nat) (Vector : Vector3d K) (tr : T) :
    Option (Plane K Nat × List T) :=
  match p.Trans with
  | none =>
    some (Plane.Compute_BBox F
      { p with Distance := p.Distance - dot p.Normal_Vector Vector }, heap)
  | some a =>
    match heap[a]? with
    | none => none
    | some t => some (Plane.Compute_BBox F p, heap.set a (M.Compose_Transforms t tr))

/-- The function `Plane::Intersect` on an object in memory. -/
def Plane.IntersectAt {K T : Type} [LinearOrderedField K] (F : FrameConsts K)
    (M : MatrixOps K T) (heap : List T) (p : Plane K Nat) (ray : BasicRay K) (Depth : K)
    (Thread : Stats) : Option (IntersectResult K) :=
  (Plane.deref heap p).map (fun pv => pv.Intersect F M ray Depth Thread)

/-- The function `Plane::Inside` on an object in memory. -/
def Plane.InsideAt {K T : Type} [LinearOrderedField K] (F : FrameConsts K)
    (M : MatrixOps K T) (heap : List T) (p : Plane K Nat) (IPoint : Vector3d K) : Option Bool :=
  (Plane.deref heap p).map (fun pv => pv.Inside F M IPoint)

/-- The object for `movedPlane`: its transform lies at address 0. -/
def movedObj : Plane ℚ Nat :=
  { Normal_Vector := ⟨0, 1, 0⟩, Distance := 0, Trans := some 0, Clip := [], BBox := sampleBox }

/-! ## Theorems -/

section Properties

set_option linter.unusedSectionVars false

variable {K T : Type} [LinearOrderedField K]

/-- Closed form of `Intersect` in terms of the local ray. -/
theorem Plane.Intersect_eq (F : FrameConsts K) (M : MatrixOps K T) (pl : Plane K T)
    (ray : BasicRay K) (d0 : K) (st : Stats) :
    pl.Intersect F M ray d0 st =
      if |dot pl.Normal_Vector (pl.localDirection M ray)| < F.EPSILON then
        ⟨false, d0, st.incr IntStatsIndex.Ray_Plane_Tests⟩
      else if DEPTH_TOLERANCE ≤ pl.specDepth M ray ∧ pl.specDepth M ray ≤ F.MAX_DISTANCE then
        ⟨true, pl.specDepth M ray,
          (st.incr IntStatsIndex.Ray_Plane_Tests).incr IntStatsIndex.Ray_Plane_Tests_Succeeded⟩
      else
        ⟨false, pl.specDepth M ray, st.incr IntStatsIndex.Ray_Plane_Tests⟩ := by
  unfold Plane.Intersect Plane.specDepth Plane.localDirection Plane.localOrigin
  cases pl.Trans <;> dsimp only <;> split_ifs <;> simp_all

/-- C1. `Intersect` returns true with depth `t` exactly when the local ray is
not (near-)parallel, `t` is the depth of the plane equation and `t` lies in
`[DEPTH_TOLERANCE, MAX_DISTANCE]`; a computed depth equal to either bound is
accepted, one strictly outside the interval is rejected. -/
theorem Plane.Intersect_spec (F : FrameConsts K) (M : MatrixOps K T)
    (hMD : (DEPTH_TOLERANCE : K) ≤ F.MAX_DISTANCE) :
    (∀ (pl : Plane K T) (ray : BasicRay K) (d0 : K) (st : Stats) (t : K),
      ((pl.Intersect F M ray d0 st).hit = true ∧ (pl.Intersect F M ray d0 st).Depth = t) ↔
        (F.EPSILON ≤ |dot pl.Normal_Vector (pl.localDirection M ray)| ∧
          t = -(dot pl.Normal_Vector (pl.localOrigin M ray) + pl.Distance)
                / dot pl.Normal_Vector (pl.localDirection M ray) ∧
          DEPTH_TOLERANCE ≤ t ∧ t ≤ F.MAX_DISTANCE)) ∧
    (∀ (pl : Plane K T) (ray : BasicRay K) (d0 : K) (st : Stats),
      F.EPSILON ≤ |dot pl.Normal_Vector (pl.localDirection M ray)| →
      (pl.specDepth M ray = DEPTH_TOLERANCE ∨ pl.specDepth M ray = F.MAX_DISTANCE) →
        (pl.Intersect F M ray d0 st).hit = true ∧
        (pl.Intersect F M ray d0 st).Depth = pl.specDepth M ray) ∧
    (∀ (pl : Plane K T) (ray : BasicRay K) (d0 : K) (st : Stats),
      (pl.specDepth M ray < DEPTH_TOLERANCE ∨ F.MAX_DISTANCE < pl.specDepth M ray) →
        (pl.Intersect F M ray d0 st).hit = false) := by
  refine ⟨?_, ?_, ?_⟩
  · intro pl ray d0 st t
    rw [Plane.Intersect_eq]
    change _ ↔ (_ ∧ t = pl.specDepth M ray ∧ _)
    split_ifs with h1 h2
    · simp only [Bool.false_eq_true, false_and, false_iff]
      intro h
      exact absurd h1 (not_lt.mpr h.1)
    · constructor
      · rintro ⟨-, rfl⟩
        exact ⟨not_lt.mp h1, rfl, h2.1, h2.2⟩
      · rintro ⟨-, rfl, -, -⟩
        exact ⟨rfl, rfl⟩
    · simp only [Bool.false_eq_true, false_and, false_iff]
      rintro ⟨-, rfl, h3, h4⟩
      exact h2 ⟨h3, h4⟩
  · intro pl ray d0 st hpar hb
    rw [Plane.Intersect_eq]
    have h2 : DEPTH_TOLERANCE ≤ pl.specDepth M ray ∧ pl.specDepth M ray ≤ F.MAX_DISTANCE := by
      rcases hb with hb | hb <;> rw [hb]
      · exact ⟨le_refl _, hMD⟩
      · exact ⟨hMD, le_refl _⟩
    rw [if_neg (not_lt.mpr hpar), if_pos h2]
    exact ⟨rfl, rfl⟩
  · intro pl ray d0 st hout
    rw [Plane.Intersect_eq]
    split_ifs with h1 h2
    · rfl
    · rcases hout with h | h
      · exact absurd h2.1 (not_le.mpr h)
      · exact absurd h2.2 (not_le.mpr h)
    · rfl

/-- C1, evaluated: the constructor plane and the ray from `(0,5,0)` going
down give a hit at depth 5. -/
theorem Plane.Intersect_spec_witness :
    (DEPTH_TOLERANCE : ℚ) ≤ sampleFrame.MAX_DISTANCE ∧
    ((defaultPlane.Intersect sampleFrame translationOps downRay 0 zeroStats).hit = true ∧
      (defaultPlane.Intersect sampleFrame translationOps downRay 0 zeroStats).Depth = 5) :=
  ⟨by norm_num [DEPTH_TOLERANCE, sampleFrame],
   ((Plane.Intersect_spec sampleFrame translationOps
      (by norm_num [DEPTH_TOLERANCE, sampleFrame])).1 defaultPlane downRay 0 zeroStats 5).mpr
      (by norm_num [DEPTH_TOLERANCE, sampleFrame, defaultPlane, downRay, Plane.new, dot,
            Plane.localOrigin, Plane.localDirection])⟩

/-- The constructor plane and the ray from `(0,5,0)` going down: `Intersect`
succeeds with depth 5 and counts one test and one success. -/
theorem Plane.Intersect_new_down (F : FrameConsts K) (M : MatrixOps K T)
    (hE : F.EPSILON ≤ 1) (hMD : 5 ≤ F.MAX_DISTANCE) (bb : BoundingBox K) (d0 : K) (st : Stats) :
    (Plane.new bb : Plane K T).Intersect F M ⟨⟨0, 5, 0⟩, ⟨0, -1, 0⟩⟩ d0 st =
      ⟨true, 5, (st.incr IntStatsIndex.Ray_Plane_Tests).incr
        IntStatsIndex.Ray_Plane_Tests_Succeeded⟩ := by
  have hd : (Plane.new bb : Plane K T).specDepth M ⟨⟨0, 5, 0⟩, ⟨0, -1, 0⟩⟩ = 5 := by
    norm_num [Plane.specDepth, Plane.new, Plane.localOrigin, Plane.localDirection, dot]
  have hn : dot (Plane.new bb : Plane K T).Normal_Vector
      ((Plane.new bb : Plane K T).localDirection M ⟨⟨0, 5, 0⟩, ⟨0, -1, 0⟩⟩) = -1 := by
    norm_num [Plane.new, Plane.localDirection, dot]
  rw [Plane.Intersect_eq, hd, hn, if_neg, if_pos]
  · refine ⟨?_, hMD⟩
    norm_num [DEPTH_TOLERANCE]
  · rw [abs_neg, abs_one]
    exact not_lt.mpr hE

/-- C2. `All_Intersections` returns true and pushes exactly the record
(depth `t`, point `origin + t * direction`, this plane) if and only if
`Intersect` succeeds with depth `t` and the clip list is empty or
`Point_In_Clip` accepts the point; otherwise it returns false and leaves the
collector unchanged.  It never pushes more than one record.  For the
constructor plane and the ray from `(0,5,0)` with direction `(0,-1,0)` it
returns true and pushes the record with depth 5 and point `(0,0,0)`. -/
theorem Plane.All_Intersections_spec (F : FrameConsts K) (M : MatrixOps K T)
    (PIC : Vector3d K → List (ClipObject K) → Stats → Bool × Stats)
    (hE : F.EPSILON ≤ 1) (hMD : 5 ≤ F.MAX_DISTANCE) :
    (∀ (pl : Plane K T) (ray : BasicRay K) (stack : List (Intersection K T))
        (d0 : K) (st : Stats) (t : K),
      ((pl.All_Intersections F M PIC ray stack d0 st).found = true ∧
        (pl.All_Intersections F M PIC ray stack d0 st).Depth_Stack =
          ⟨t, ray.Origin.add (ray.Direction.smul t), pl⟩ :: stack) ↔
      ((pl.Intersect F M ray d0 st).hit = true ∧ (pl.Intersect F M ray d0 st).Depth = t ∧
        (pl.Clip = [] ∨
          (PIC (ray.Origin.add (ray.Direction.smul t)) pl.Clip
            (pl.Intersect F M ray d0 st).Thread).1 = true))) ∧
    (∀ (pl : Plane K T) (ray : BasicRay K) (stack : List (Intersection K T))
        (d0 : K) (st : Stats),
      ¬ ((pl.Intersect F M ray d0 st).hit = true ∧
          (pl.Clip = [] ∨
            (PIC (ray.Origin.add (ray.Direction.smul (pl.Intersect F M ray d0 st).Depth))
              pl.Clip (pl.Intersect F M ray d0 st).Thread).1 = true)) →
      (pl.All_Intersections F M PIC ray stack d0 st).found = false ∧
        (pl.All_Intersections F M PIC ray stack d0 st).Depth_Stack = stack) ∧
    (∀ (pl : Plane K T) (ray : BasicRay K) (stack : List (Intersection K T))
        (d0 : K) (st : Stats),
      (pl.All_Intersections F M PIC ray stack d0 st).Depth_Stack.length ≤ stack.length + 1) ∧
    (∀ (bb : BoundingBox K) (stack : List (Intersection K T)) (d0 : K) (st : Stats),
      ((Plane.new bb : Plane K T).All_Intersections F M PIC
          ⟨⟨0, 5, 0⟩, ⟨0, -1, 0⟩⟩ stack d0 st).found = true ∧
      ((Plane.new bb : Plane K T).All_Intersections F M PIC
          ⟨⟨0, 5, 0⟩, ⟨0, -1, 0⟩⟩ stack d0 st).Depth_Stack =
        ⟨5, ⟨0, 0, 0⟩, Plane.new bb⟩ :: stack) := by
  refine ⟨?_, ?_, ?_, ?_⟩
  · intro pl ray stack d0 st t
    unfold Plane.All_Intersections BasicRay.Evaluate
    generalize pl.Intersect F M ray d0 st = r
    rcases r with ⟨hit, dep, th⟩
    cases hit
    · simp
    · cases hc : pl.Clip with
      | nil => simp; tauto
      | cons c cs =>
        by_cases hp : (PIC (ray.Origin.add (ray.Direction.smul dep)) (c :: cs) th).1 = true
        · simp only [hp, List.isEmpty_cons, Bool.false_eq_true, if_false, if_true, true_and,
            List.cons.injEq, and_true, Intersection.mk.injEq, reduceCtorEq, false_or]
          constructor
          · rintro ⟨rfl, -⟩; exact ⟨rfl, hp⟩
          · rintro ⟨rfl, -⟩; exact ⟨rfl, rfl⟩
        · simp only [hp, List.isEmpty_cons, Bool.false_eq_true, if_false, if_true, false_and,
            true_and, reduceCtorEq, false_or, false_iff, not_and]
          rintro rfl
          exact hp
  · intro pl ray stack d0 st
    unfold Plane.All_Intersections BasicRay.Evaluate
    generalize pl.Intersect F M ray d0 st = r
    rcases r with ⟨hit, dep, th⟩
    cases hit
    · simp
    · cases hc : pl.Clip with
      | nil => simp
      | cons c cs =>
        simp
        intro hp
        simp [hp]
  · intro pl ray stack d0 st
    unfold Plane.All_Intersections
    dsimp only
    split_ifs <;> simp
  · intro bb stack d0 st
    unfold Plane.All_Intersections
    rw [Plane.Intersect_new_down F M hE hMD]
    norm_num [Plane.new, BasicRay.Evaluate, Vector3d.add, Vector3d.smul]

/-- C2, evaluated on the sample constants with a clip predicate. -/
theorem Plane.All_Intersections_spec_witness :
    sampleFrame.EPSILON ≤ 1 ∧ 5 ≤ sampleFrame.MAX_DISTANCE ∧
    (defaultPlane.All_Intersections sampleFrame translationOps sampleClip
        ⟨⟨0, 5, 0⟩, ⟨0, -1, 0⟩⟩ [] 0 zeroStats).found = true ∧
    (defaultPlane.All_Intersections sampleFrame translationOps sampleClip
        ⟨⟨0, 5, 0⟩, ⟨0, -1, 0⟩⟩ [] 0 zeroStats).Depth_Stack =
      [⟨5, ⟨0, 0, 0⟩, defaultPlane⟩] :=
  ⟨by norm_num [sampleFrame], by norm_num [sampleFrame],
   (Plane.All_Intersections_spec sampleFrame translationOps sampleClip
      (by norm_num [sampleFrame]) (by norm_num [sampleFrame])).2.2.2 sampleBox [] 0 zeroStats⟩

/-- The dot product is symmetric. -/
theorem dot_comm (a b : Vector3d K) : dot a b = dot b a := by
  simp only [dot, mul_comm]

/-- Closed form of `Inside` in terms of the local point. -/
theorem Plane.Inside_iff (F : FrameConsts K) (M : MatrixOps K T) (pl : Plane K T)
    (P : Vector3d K) :
    pl.Inside F M P = true ↔
      dot pl.Normal_Vector (pl.localPoint M P) + pl.Distance < F.EPSILON := by
  unfold Plane.Inside Plane.localPoint
  cases pl.Trans <;> simp only [decide_eq_true_eq, dot_comm]

/-- C3. `Inside` returns true exactly when `dot(n, P') + d < EPSILON`, with
`P'` the point itself when the plane has no transform and its image under
the inverse point map otherwise; for the constructor plane and
`0 < EPSILON ≤ 1`, `(0,-1,0)` is inside and `(0,1,0)` is not. -/
theorem Plane.Inside_spec (F : FrameConsts K) (M : MatrixOps K T)
    (h0 : 0 < F.EPSILON) (h1 : F.EPSILON ≤ 1) :
    (∀ (pl : Plane K T) (P : Vector3d K),
      pl.Inside F M P = true ↔
        dot pl.Normal_Vector
            (match pl.Trans with
              | none => P
              | some Trans => M.MInvTransPoint P Trans) + pl.Distance < F.EPSILON) ∧
    (∀ bb : BoundingBox K,
      (Plane.new bb : Plane K T).Inside F M ⟨0, -1, 0⟩ = true ∧
      (Plane.new bb : Plane K T).Inside F M ⟨0, 1, 0⟩ = false) := by
  refine ⟨fun pl P => Plane.Inside_iff F M pl P, fun bb => ⟨?_, ?_⟩⟩
  · rw [Plane.Inside_iff]
    norm_num [Plane.new, Plane.localPoint, dot]
    linarith
  · rw [← Bool.not_eq_true, Plane.Inside_iff]
    norm_num [Plane.new, Plane.localPoint, dot]
    exact h1

/-- C3, evaluated on the sample constants. -/
theorem Plane.Inside_spec_witness :
    (0 < sampleFrame.EPSILON ∧ sampleFrame.EPSILON ≤ 1) ∧
    defaultPlane.Inside sampleFrame translationOps ⟨0, -1, 0⟩ = true ∧
    defaultPlane.Inside sampleFrame translationOps ⟨0, 1, 0⟩ = false :=
  ⟨⟨by norm_num [sampleFrame], by norm_num [sampleFrame]⟩,
   (Plane.Inside_spec sampleFrame translationOps
      (by norm_num [sampleFrame]) (by norm_num [sampleFrame])).2 sampleBox⟩

/-- C4, as stated, fails: after `Translate((0,2,0))` on the constructor plane
the ray from `(0,5,0)` going down is hit at depth 3, not 7. -/
theorem Plane.Translate_depth_counterexample :
    ¬ (((defaultPlane.Translate sampleFrame translationOps ⟨0, 2, 0⟩ ⟨0, 2, 0⟩).Intersect
          sampleFrame translationOps downRay 0 zeroStats).hit = true ∧
       ((defaultPlane.Translate sampleFrame translationOps ⟨0, 2, 0⟩ ⟨0, 2, 0⟩).Intersect
          sampleFrame translationOps downRay 0 zeroStats).Depth = 7) := by
  rw [Plane.Intersect_eq]
  norm_num [Plane.specDepth, Plane.localOrigin, Plane.localDirection, Plane.Translate,
    Plane.Compute_BBox, defaultPlane, Plane.new, downRay, dot, sampleFrame, DEPTH_TOLERANCE]

/-- C4, amended: after `Translate((0,2,0))` on the constructor plane,
`Intersect` on the ray with origin `(0,5,0)` and direction `(0,-1,0)`
succeeds and yields depth 3 (the plane `y = 0` has moved up to `y = 2`). -/
theorem Plane.Translate_depth (F : FrameConsts K) (M : MatrixOps K T)
    (hE : F.EPSILON ≤ 1) (hMD : 3 ≤ F.MAX_DISTANCE)
    (bb : BoundingBox K) (tr : T) (d0 : K) (st : Stats) :
    (((Plane.new bb : Plane K T).Translate F M ⟨0, 2, 0⟩ tr).Intersect F M
        ⟨⟨0, 5, 0⟩, ⟨0, -1, 0⟩⟩ d0 st).hit = true ∧
    (((Plane.new bb : Plane K T).Translate F M ⟨0, 2, 0⟩ tr).Intersect F M
        ⟨⟨0, 5, 0⟩, ⟨0, -1, 0⟩⟩ d0 st).Depth = 3 := by
  have hd : ((Plane.new bb : Plane K T).Translate F M ⟨0, 2, 0⟩ tr).specDepth M
      ⟨⟨0, 5, 0⟩, ⟨0, -1, 0⟩⟩ = 3 := by
    norm_num [Plane.specDepth, Plane.localOrigin, Plane.localDirection, Plane.Translate,
      Plane.Compute_BBox, Plane.new, dot]
  have hn : dot ((Plane.new bb : Plane K T).Translate F M ⟨0, 2, 0⟩ tr).Normal_Vector
      (((Plane.new bb : Plane K T).Translate F M ⟨0, 2, 0⟩ tr).localDirection M
        ⟨⟨0, 5, 0⟩, ⟨0, -1, 0⟩⟩) = -1 := by
    norm_num [Plane.localDirection, Plane.Translate, Plane.Compute_BBox, Plane.new, dot]
  rw [Plane.Intersect_eq, hd, hn, if_neg, if_pos]
  · exact ⟨rfl, rfl⟩
  · refine ⟨?_, hMD⟩
    norm_num [DEPTH_TOLERANCE]
  · rw [abs_neg, abs_one]
    exact not_lt.mpr hE

/-- C4 amended, evaluated on the sample constants. -/
theorem Plane.Translate_depth_witness :
    (sampleFrame.EPSILON ≤ 1 ∧ 3 ≤ sampleFrame.MAX_DISTANCE) ∧
    ((defaultPlane.Translate sampleFrame translationOps ⟨0, 2, 0⟩ ⟨0, 2, 0⟩).Intersect
        sampleFrame translationOps downRay 0 zeroStats).hit = true ∧
    ((defaultPlane.Translate sampleFrame translationOps ⟨0, 2, 0⟩ ⟨0, 2, 0⟩).Intersect
        sampleFrame translationOps downRay 0 zeroStats).Depth = 3 :=
  ⟨⟨by norm_num [sampleFrame], by norm_num [sampleFrame]⟩,
   Plane.Translate_depth sampleFrame translationOps
      (by norm_num [sampleFrame]) (by norm_num [sampleFrame]) sampleBox ⟨0, 2, 0⟩ 0 zeroStats⟩

/-! ### Field-by-field behaviour of the mutators -/

/-- The function `Compute_BBox` keeps the normal. -/
theorem Plane.Compute_BBox_Normal_Vector (F : FrameConsts K) (pl : Plane K T) :
    (pl.Compute_BBox F).Normal_Vector = pl.Normal_Vector := by
  unfold Plane.Compute_BBox; split <;> rfl

/-- The function `Compute_BBox` keeps the distance. -/
theorem Plane.Compute_BBox_Distance (F : FrameConsts K) (pl : Plane K T) :
    (pl.Compute_BBox F).Distance = pl.Distance := by
  unfold Plane.Compute_BBox; split <;> rfl

/-- The function `Compute_BBox` keeps the transform. -/
theorem Plane.Compute_BBox_Trans (F : FrameConsts K) (pl : Plane K T) :
    (pl.Compute_BBox F).Trans = pl.Trans := by
  unfold Plane.Compute_BBox; split <;> rfl

/-- The function `Compute_BBox` keeps the clip list. -/
theorem Plane.Compute_BBox_Clip (F : FrameConsts K) (pl : Plane K T) :
    (pl.Compute_BBox F).Clip = pl.Clip := by
  unfold Plane.Compute_BBox; split <;> rfl

/-- Direct branch of `Translate`. -/
theorem Plane.Translate_none (F : FrameConsts K) (M : MatrixOps K T) (pl : Plane K T)
    (v : Vector3d K) (tr : T) (hT : pl.Trans = none) :
    pl.Translate F M v tr =
      Plane.Compute_BBox F { pl with Distance := pl.Distance - dot pl.Normal_Vector v } := by
  unfold Plane.Translate; rw [hT]

/-- Direct branch of `Rotate`. -/
theorem Plane.Rotate_none (F : FrameConsts K) (M : MatrixOps K T) (pl : Plane K T)
    (v : Vector3d K) (tr : T) (hT : pl.Trans = none) :
    pl.Rotate F M v tr =
      Plane.Compute_BBox F { pl with Normal_Vector := M.MTransDirection pl.Normal_Vector tr } := by
  unfold Plane.Rotate; rw [hT]

/-- Direct branch of `Scale`. -/
theorem Plane.Scale_none (sqrt : K → K) (F : FrameConsts K) (M : MatrixOps K T)
    (pl : Plane K T) (v : Vector3d K) (tr : T) (hT : pl.Trans = none) :
    pl.Scale sqrt F M v tr =
      Plane.Compute_BBox F
        { pl with Normal_Vector := (pl.Normal_Vector.divv v).divs ((pl.Normal_Vector.divv v).length sqrt),
                  Distance := pl.Distance / (pl.Normal_Vector.divv v).length sqrt } := by
  unfold Plane.Scale; rw [hT]

/-- A non-negative number whose square is `x * x` with `0 < x` is `x`. -/
theorem eq_of_sq_eq_of_pos {L x : K} (h0 : 0 ≤ L) (hx : 0 < x) (h : L * L = x * x) : L = x := by
  have h2 : (L - x) * (L + x) = 0 := by linear_combination h
  rcases mul_eq_zero.mp h2 with h3 | h3
  · linarith
  · linarith

/-- C5, as stated, fails.  On the plane `y = 2` (unit normal `(0,1,0)`,
distance `-2`) `Scale((2,2,2))` makes the distance `-4`, so `(0,3,0)` is inside
afterwards and was not before; on the constructor plane `Scale((-1,-1,-1))`
turns the normal round, so `(0,1,0)` is inside afterwards and was not before. -/
theorem Plane.Scale_uniform_counterexample :
    (raisedPlane.Scale Rat.sqrt sampleFrame translationOps ⟨2, 2, 2⟩ ⟨0, 0, 0⟩).Inside
        sampleFrame translationOps ⟨0, 3, 0⟩ ≠
      raisedPlane.Inside sampleFrame translationOps ⟨0, 3, 0⟩ ∧
    (defaultPlane.Scale Rat.sqrt sampleFrame translationOps ⟨-1, -1, -1⟩ ⟨0, 0, 0⟩).Inside
        sampleFrame translationOps ⟨0, 1, 0⟩ ≠
      defaultPlane.Inside sampleFrame translationOps ⟨0, 1, 0⟩ := by
  constructor
  · norm_num [Plane.Scale, Plane.Compute_BBox, Plane.Inside, raisedPlane, sampleFrame, dot,
      Vector3d.divv, Vector3d.divs, Vector3d.length, Rat.sqrt]
  · norm_num [Plane.Scale, Plane.Compute_BBox, Plane.Inside, defaultPlane, Plane.new, sampleFrame,
      dot, Vector3d.divv, Vector3d.divs, Vector3d.length, Rat.sqrt]

/-- C5, amended: on a plane without a transform and with a unit normal,
`Scale((k,k,k))` with `k > 0` keeps the normal and multiplies the distance by
`k`; so `Inside(k * P)` afterwards holds exactly when
`k * (dot(n, P) + d) < EPSILON`, and when the distance is 0 the result of
`Inside` is the same after the scale as before, for every point. -/
theorem Plane.Scale_uniform (sqrt : K → K) (F : FrameConsts K) (M : MatrixOps K T)
    (pl : Plane K T) (k : K) (tr : T)
    (hT : pl.Trans = none)
    (hn : dot pl.Normal_Vector pl.Normal_Vector = 1)
    (hk : 0 < k)
    (hs0 : 0 ≤ (pl.Normal_Vector.divv ⟨k, k, k⟩).length sqrt)
    (hs : (pl.Normal_Vector.divv ⟨k, k, k⟩).length sqrt *
            (pl.Normal_Vector.divv ⟨k, k, k⟩).length sqrt =
          dot (pl.Normal_Vector.divv ⟨k, k, k⟩) (pl.Normal_Vector.divv ⟨k, k, k⟩)) :
    (pl.Scale sqrt F M ⟨k, k, k⟩ tr).Normal_Vector = pl.Normal_Vector ∧
    (pl.Scale sqrt F M ⟨k, k, k⟩ tr).Distance = k * pl.Distance ∧
    (∀ P : Vector3d K,
      (pl.Scale sqrt F M ⟨k, k, k⟩ tr).Inside F M (P.smul k) = true ↔
        k * (dot pl.Normal_Vector P + pl.Distance) < F.EPSILON) ∧
    (pl.Distance = 0 → ∀ P : Vector3d K,
      (pl.Scale sqrt F M ⟨k, k, k⟩ tr).Inside F M P = pl.Inside F M P) := by
  have hk0 : k ≠ 0 := ne_of_gt hk
  have hik : 0 < 1 / k := one_div_pos.mpr hk
  have hd : dot (pl.Normal_Vector.divv ⟨k, k, k⟩) (pl.Normal_Vector.divv ⟨k, k, k⟩)
      = (1 / k) * (1 / k) := by
    simp only [dot, Vector3d.divv] at hn ⊢
    field_simp
    linear_combination hn
  have hL : (pl.Normal_Vector.divv ⟨k, k, k⟩).length sqrt = 1 / k :=
    eq_of_sq_eq_of_pos hs0 hik (hs.trans hd)
  have hN : (pl.Scale sqrt F M ⟨k, k, k⟩ tr).Normal_Vector = pl.Normal_Vector := by
    rw [Plane.Scale_none sqrt F M pl _ tr hT, Plane.Compute_BBox_Normal_Vector, hL]
    rcases pl with ⟨⟨x, y, z⟩, d, t, c, b⟩
    simp only [Vector3d.divv, Vector3d.divs, Vector3d.mk.injEq]
    refine ⟨?_, ?_, ?_⟩ <;> field_simp
  have hD : (pl.Scale sqrt F M ⟨k, k, k⟩ tr).Distance = k * pl.Distance := by
    rw [Plane.Scale_none sqrt F M pl _ tr hT, Plane.Compute_BBox_Distance, hL]
    simp only []
    field_simp
    ring
  have hTr : (pl.Scale sqrt F M ⟨k, k, k⟩ tr).Trans = none := by
    rw [Plane.Scale_none sqrt F M pl _ tr hT, Plane.Compute_BBox_Trans]
    exact hT
  refine ⟨hN, hD, ?_, ?_⟩
  · intro P
    rw [Plane.Inside_iff, hN, hD]
    simp only [Plane.localPoint, hTr]
    have : dot pl.Normal_Vector (P.smul k) + k * pl.Distance
        = k * (dot pl.Normal_Vector P + pl.Distance) := by
      simp only [dot, Vector3d.smul]; ring
    rw [this]
  · intro hd0 P
    rw [Bool.eq_iff_iff, Plane.Inside_iff, Plane.Inside_iff, hN, hD, hd0]
    simp only [Plane.localPoint, hTr, hT, mul_zero]

/-- C5 amended, evaluated: the constructor plane under `Scale((2,2,2))` with
the rational square root. -/
theorem Plane.Scale_uniform_witness :
    (defaultPlane.Scale Rat.sqrt sampleFrame translationOps ⟨2, 2, 2⟩ ⟨0, 0, 0⟩).Normal_Vector =
        ⟨0, 1, 0⟩ ∧
    (defaultPlane.Scale Rat.sqrt sampleFrame translationOps ⟨2, 2, 2⟩ ⟨0, 0, 0⟩).Distance = 0 ∧
    (defaultPlane.Scale Rat.sqrt sampleFrame translationOps ⟨2, 2, 2⟩ ⟨0, 0, 0⟩).Inside
        sampleFrame translationOps ⟨0, 1, 0⟩ =
      defaultPlane.Inside sampleFrame translationOps ⟨0, 1, 0⟩ :=
  have h := Plane.Scale_uniform Rat.sqrt sampleFrame translationOps defaultPlane 2 ⟨0, 0, 0⟩ rfl
    (by norm_num [defaultPlane, Plane.new, dot]) (by norm_num)
    (by norm_num [defaultPlane, Plane.new, Vector3d.divv, Vector3d.length, Rat.sqrt])
    (by norm_num [defaultPlane, Plane.new, Vector3d.divv, Vector3d.length, dot, Rat.sqrt])
  ⟨h.1, by rw [h.2.1]; norm_num [defaultPlane, Plane.new], h.2.2.2 rfl ⟨0, 1, 0⟩⟩

/-- C6. `Invert` applied twice gives back the plane: same normal and
distance, every other field untouched; so `Inside` gives the same result
after `Invert(); Invert()` as before, for every point. -/
theorem Plane.Invert_involution (F : FrameConsts K) (M : MatrixOps K T) (pl : Plane K T) :
    pl.Invert.Invert.Normal_Vector = pl.Normal_Vector ∧
    pl.Invert.Invert.Distance = pl.Distance ∧
    pl.Invert.Invert.Trans = pl.Trans ∧
    pl.Invert.Invert.Clip = pl.Clip ∧
    pl.Invert.Invert.BBox = pl.BBox ∧
    pl.Invert.Invert = pl ∧
    (∀ P : Vector3d K, pl.Invert.Invert.Inside F M P = pl.Inside F M P) := by
  have h : pl.Invert.Invert = pl := by
    rcases pl with ⟨⟨x, y, z⟩, d, t, c, b⟩
    simp [Plane.Invert, Vector3d.invert]
  rw [h]
  exact ⟨rfl, rfl, rfl, rfl, rfl, rfl, fun _ => rfl⟩

/-- C7. A ray with `|dot(normal, direction)| < EPSILON` on a plane without a
transform: `Intersect` returns false whatever the origin, the
succeeded-tests counter keeps its value, and `All_Intersections` returns
false and pushes nothing.  With `0 < EPSILON`, every ray of direction
`(1,0,0)` misses the constructor plane. -/
theorem Plane.Intersect_parallel (F : FrameConsts K) (M : MatrixOps K T)
    (PIC : Vector3d K → List (ClipObject K) → Stats → Bool × Stats)
    (h0 : 0 < F.EPSILON) :
    (∀ (pl : Plane K T) (ray : BasicRay K) (stack : List (Intersection K T))
        (d0 : K) (st : Stats),
      pl.Trans = none → |dot pl.Normal_Vector ray.Direction| < F.EPSILON →
        (pl.Intersect F M ray d0 st).hit = false ∧
        (pl.Intersect F M ray d0 st).Thread IntStatsIndex.Ray_Plane_Tests_Succeeded =
          st IntStatsIndex.Ray_Plane_Tests_Succeeded ∧
        (pl.All_Intersections F M PIC ray stack d0 st).found = false ∧
        (pl.All_Intersections F M PIC ray stack d0 st).Depth_Stack = stack) ∧
    (∀ (bb : BoundingBox K) (o : Vector3d K) (stack : List (Intersection K T))
        (d0 : K) (st : Stats),
      ((Plane.new bb : Plane K T).Intersect F M ⟨o, ⟨1, 0, 0⟩⟩ d0 st).hit = false ∧
      ((Plane.new bb : Plane K T).All_Intersections F M PIC ⟨o, ⟨1, 0, 0⟩⟩ stack d0 st).Depth_Stack
        = stack) := by
  have key : ∀ (pl : Plane K T) (ray : BasicRay K) (stack : List (Intersection K T))
      (d0 : K) (st : Stats),
      pl.Trans = none → |dot pl.Normal_Vector ray.Direction| < F.EPSILON →
        (pl.Intersect F M ray d0 st).hit = false ∧
        (pl.Intersect F M ray d0 st).Thread IntStatsIndex.Ray_Plane_Tests_Succeeded =
          st IntStatsIndex.Ray_Plane_Tests_Succeeded ∧
        (pl.All_Intersections F M PIC ray stack d0 st).found = false ∧
        (pl.All_Intersections F M PIC ray stack d0 st).Depth_Stack = stack := by
    intro pl ray stack d0 st hT hpar
    have hI : pl.Intersect F M ray d0 st = ⟨false, d0, st.incr IntStatsIndex.Ray_Plane_Tests⟩ := by
      rw [Plane.Intersect_eq, if_pos]
      simpa only [Plane.localDirection, hT] using hpar
    unfold Plane.All_Intersections
    rw [hI]
    refine ⟨rfl, ?_, rfl, rfl⟩
    simp [Stats.incr]
  refine ⟨key, fun bb o stack d0 st => ?_⟩
  have h := key (Plane.new bb) ⟨o, ⟨1, 0, 0⟩⟩ stack d0 st rfl
    (by simpa [Plane.new, dot] using h0)
  exact ⟨h.1, h.2.2.2⟩

/-- C7, evaluated: the ray from `(0,0,0)` (a point of the plane) along
`(1,0,0)` misses the constructor plane. -/
theorem Plane.Intersect_parallel_witness :
    0 < sampleFrame.EPSILON ∧
    (defaultPlane.Intersect sampleFrame translationOps ⟨⟨0, 0, 0⟩, ⟨1, 0, 0⟩⟩ 0 zeroStats).hit
      = false ∧
    (defaultPlane.All_Intersections sampleFrame translationOps sampleClip
        ⟨⟨0, 0, 0⟩, ⟨1, 0, 0⟩⟩ [] 0 zeroStats).Depth_Stack = [] :=
  ⟨by norm_num [sampleFrame],
   (Plane.Intersect_parallel sampleFrame translationOps sampleClip
      (by norm_num [sampleFrame])).2 sampleBox ⟨0, 0, 0⟩ [] 0 zeroStats⟩

/-- C8. `Translate` on a plane without a transform keeps the normal, keeps the
transform absent and sets the distance to `distance - dot(normal, v)`; so
`dot(normal, P + v) + distance` afterwards equals `dot(normal, P) + distance`
before, `Inside(P + v)` afterwards equals `Inside(P)` before, and `Intersect`
on the ray with origin shifted by `v` gives afterwards what `Intersect` on the
unshifted ray gave before. -/
theorem Plane.Translate_direct (F : FrameConsts K) (M : MatrixOps K T) (pl : Plane K T)
    (v : Vector3d K) (tr : T) (hT : pl.Trans = none) :
    (pl.Translate F M v tr).Normal_Vector = pl.Normal_Vector ∧
    (pl.Translate F M v tr).Trans = none ∧
    (pl.Translate F M v tr).Distance = pl.Distance - dot pl.Normal_Vector v ∧
    (∀ P : Vector3d K,
      dot (pl.Translate F M v tr).Normal_Vector (P.add v) + (pl.Translate F M v tr).Distance =
        dot pl.Normal_Vector P + pl.Distance) ∧
    (∀ P : Vector3d K, (pl.Translate F M v tr).Inside F M (P.add v) = pl.Inside F M P) ∧
    (∀ (o dir : Vector3d K) (d0 : K) (st : Stats),
      (pl.Translate F M v tr).Intersect F M ⟨o.add v, dir⟩ d0 st =
        pl.Intersect F M ⟨o, dir⟩ d0 st) := by
  have hN : (pl.Translate F M v tr).Normal_Vector = pl.Normal_Vector := by
    rw [Plane.Translate_none F M pl v tr hT, Plane.Compute_BBox_Normal_Vector]
  have hTr : (pl.Translate F M v tr).Trans = none := by
    rw [Plane.Translate_none F M pl v tr hT, Plane.Compute_BBox_Trans]
    exact hT
  have hD : (pl.Translate F M v tr).Distance = pl.Distance - dot pl.Normal_Vector v := by
    rw [Plane.Translate_none F M pl v tr hT, Plane.Compute_BBox_Distance]
  have hE : ∀ P : Vector3d K,
      dot (pl.Translate F M v tr).Normal_Vector (P.add v) + (pl.Translate F M v tr).Distance =
        dot pl.Normal_Vector P + pl.Distance := by
    intro P
    rw [hN, hD]
    simp only [dot, Vector3d.add]
    ring
  refine ⟨hN, hTr, hD, hE, ?_, ?_⟩
  · intro P
    rw [Bool.eq_iff_iff, Plane.Inside_iff, Plane.Inside_iff]
    simp only [Plane.localPoint, hTr, hT]
    rw [hE]
  · intro o dir d0 st
    rw [Plane.Intersect_eq, Plane.Intersect_eq]
    simp only [Plane.specDepth, Plane.localOrigin, Plane.localDirection, hTr, hT]
    rw [hE, hN]

/-- C8, evaluated: the plane `y = 2` translated by `(0,3,0)`. -/
theorem Plane.Translate_direct_witness :
    (raisedPlane.Translate sampleFrame translationOps ⟨0, 3, 0⟩ ⟨0, 3, 0⟩).Distance = -5 ∧
    (raisedPlane.Translate sampleFrame translationOps ⟨0, 3, 0⟩ ⟨0, 3, 0⟩).Inside
        sampleFrame translationOps ⟨0, 4, 0⟩ =
      raisedPlane.Inside sampleFrame translationOps ⟨0, 1, 0⟩ :=
  have h := Plane.Translate_direct sampleFrame translationOps raisedPlane ⟨0, 3, 0⟩ ⟨0, 3, 0⟩ rfl
  ⟨by rw [h.2.2.1]; norm_num [raisedPlane, dot],
   by
    have h2 := h.2.2.2.2.1 ⟨0, 1, 0⟩
    norm_num [Vector3d.add] at h2
    exact h2⟩

/-- A vector other than `(0,0,0)` has a positive squared length. -/
theorem dot_self_pos {a : Vector3d K} (h : a ≠ ⟨0, 0, 0⟩) : 0 < dot a a := by
  rcases a with ⟨x, y, z⟩
  have hx := mul_self_nonneg x
  have hy := mul_self_nonneg y
  have hz := mul_self_nonneg z
  rcases lt_or_eq_of_le (add_nonneg (add_nonneg hx hy) hz) with h1 | h1
  · exact h1
  · exfalso
    apply h
    have ex : x * x = 0 := by linarith
    have ey : y * y = 0 := by linarith
    have ez : z * z = 0 := by linarith
    rw [mul_self_eq_zero.mp ex, mul_self_eq_zero.mp ey, mul_self_eq_zero.mp ez]

/-- A non-negative number with a positive square is positive. -/
theorem pos_of_mul_self_pos {L x : K} (h0 : 0 ≤ L) (h : L * L = x) (hx : 0 < x) : 0 < L := by
  rcases lt_or_eq_of_le h0 with h1 | h1
  · exact h1
  · rw [← h1, mul_zero] at h
    exact absurd hx (by rw [← h]; exact lt_irrefl 0)

/-- Dividing a vector by `L` with `L * L` its squared length gives squared length 1. -/
theorem dot_divs_self {a : Vector3d K} {L : K} (hL : 0 < L) (h : L * L = dot a a) :
    dot (a.divs L) (a.divs L) = 1 := by
  have hL0 : L ≠ 0 := ne_of_gt hL
  simp only [dot, Vector3d.divs] at h ⊢
  field_simp
  linear_combination -h

/-- Component-wise division by a vector with nonzero components keeps a
vector away from `(0,0,0)`. -/
theorem divv_ne_zero {a s : Vector3d K} (hx : s.x ≠ 0) (hy : s.y ≠ 0) (hz : s.z ≠ 0)
    (h : a ≠ ⟨0, 0, 0⟩) : a.divv s ≠ ⟨0, 0, 0⟩ := by
  rcases a with ⟨x, y, z⟩
  intro h2
  apply h
  simp only [Vector3d.divv, Vector3d.mk.injEq, div_eq_zero_iff] at h2
  rcases h2 with ⟨h3, h4, h5⟩
  rw [h3.resolve_right hx, h4.resolve_right hy, h5.resolve_right hz]

/-- C9. `Scale` on a plane without a transform, normal `n` not zero, scale
vector `s` with nonzero components, `m = n / s` component-wise and `L` the
length of `m`: `L > 0`, the normal becomes `m / L`, the distance `d / L`, and
for every point `Q`, `dot(normal_after, s*Q) + distance_after =
(dot(n, Q) + d) / L`; so `s*Q` is on the new plane exactly when `Q` is on the
old one and strictly on its negative side exactly when `Q` is strictly on the
negative side of the old one. -/
theorem Plane.Scale_direct (sqrt : K → K) (F : FrameConsts K) (M : MatrixOps K T)
    (pl : Plane K T) (s : Vector3d K) (tr : T)
    (hT : pl.Trans = none)
    (hsx : s.x ≠ 0) (hsy : s.y ≠ 0) (hsz : s.z ≠ 0)
    (hn : pl.Normal_Vector ≠ ⟨0, 0, 0⟩)
    (hs0 : 0 ≤ (pl.Normal_Vector.divv s).length sqrt)
    (hs : (pl.Normal_Vector.divv s).length sqrt * (pl.Normal_Vector.divv s).length sqrt =
          dot (pl.Normal_Vector.divv s) (pl.Normal_Vector.divv s)) :
    0 < (pl.Normal_Vector.divv s).length sqrt ∧
    (pl.Scale sqrt F M s tr).Normal_Vector =
      (pl.Normal_Vector.divv s).divs ((pl.Normal_Vector.divv s).length sqrt) ∧
    (pl.Scale sqrt F M s tr).Distance = pl.Distance / (pl.Normal_Vector.divv s).length sqrt ∧
    (∀ Q : Vector3d K,
      dot (pl.Scale sqrt F M s tr).Normal_Vector (s.mulv Q) + (pl.Scale sqrt F M s tr).Distance =
        (dot pl.Normal_Vector Q + pl.Distance) / (pl.Normal_Vector.divv s).length sqrt) ∧
    (∀ Q : Vector3d K,
      dot (pl.Scale sqrt F M s tr).Normal_Vector (s.mulv Q) + (pl.Scale sqrt F M s tr).Distance = 0
        ↔ dot pl.Normal_Vector Q + pl.Distance = 0) ∧
    (∀ Q : Vector3d K,
      dot (pl.Scale sqrt F M s tr).Normal_Vector (s.mulv Q) + (pl.Scale sqrt F M s tr).Distance < 0
        ↔ dot pl.Normal_Vector Q + pl.Distance < 0) := by
  have hL : 0 < (pl.Normal_Vector.divv s).length sqrt :=
    pos_of_mul_self_pos hs0 hs (dot_self_pos (divv_ne_zero hsx hsy hsz hn))
  have hL0 : (pl.Normal_Vector.divv s).length sqrt ≠ 0 := ne_of_gt hL
  have hN : (pl.Scale sqrt F M s tr).Normal_Vector =
      (pl.Normal_Vector.divv s).divs ((pl.Normal_Vector.divv s).length sqrt) := by
    rw [Plane.Scale_none sqrt F M pl s tr hT, Plane.Compute_BBox_Normal_Vector]
  have hD : (pl.Scale sqrt F M s tr).Distance =
      pl.Distance / (pl.Normal_Vector.divv s).length sqrt := by
    rw [Plane.Scale_none sqrt F M pl s tr hT, Plane.Compute_BBox_Distance]
  have hE : ∀ Q : Vector3d K,
      dot (pl.Scale sqrt F M s tr).Normal_Vector (s.mulv Q) + (pl.Scale sqrt F M s tr).Distance =
        (dot pl.Normal_Vector Q + pl.Distance) / (pl.Normal_Vector.divv s).length sqrt := by
    intro Q
    rw [hN, hD]
    generalize (pl.Normal_Vector.divv s).length sqrt = L at hL0
    simp only [dot, Vector3d.divv, Vector3d.divs, Vector3d.mulv]
    field_simp
    ring
  refine ⟨hL, hN, hD, hE, fun Q => ?_, fun Q => ?_⟩
  · rw [hE, div_eq_zero_iff]
    exact ⟨fun h => h.resolve_right hL0, fun h => Or.inl h⟩
  · rw [hE]
    exact ⟨fun h => by
             by_contra h2
             exact absurd h (not_lt.mpr (div_nonneg (not_lt.mp h2) hL.le)),
           fun h => div_neg_of_neg_of_pos h hL⟩

/-- C9, evaluated: the plane `y = 2` under `Scale((1,2,1))` with the rational
square root becomes the plane `y = 4`. -/
theorem Plane.Scale_direct_witness :
    (raisedPlane.Scale Rat.sqrt sampleFrame translationOps ⟨1, 2, 1⟩ ⟨0, 0, 0⟩).Normal_Vector =
        ⟨0, 1, 0⟩ ∧
    (raisedPlane.Scale Rat.sqrt sampleFrame translationOps ⟨1, 2, 1⟩ ⟨0, 0, 0⟩).Distance = -4 :=
  have h := Plane.Scale_direct Rat.sqrt sampleFrame translationOps raisedPlane ⟨1, 2, 1⟩ ⟨0, 0, 0⟩
    rfl (by norm_num) (by norm_num) (by norm_num)
    (by simp [raisedPlane])
    (by norm_num [raisedPlane, Vector3d.divv, Vector3d.length, Rat.sqrt])
    (by norm_num [raisedPlane, Vector3d.divv, Vector3d.length, dot, Rat.sqrt])
  ⟨by rw [h.2.1]; norm_num [raisedPlane, Vector3d.divv, Vector3d.divs, Vector3d.length, Rat.sqrt],
   by rw [h.2.2.1]; norm_num [raisedPlane, Vector3d.divv, Vector3d.length, Rat.sqrt]⟩

/-- Transform branch of `Translate`. -/
theorem Plane.Translate_some (F : FrameConsts K) (M : MatrixOps K T) (pl : Plane K T)
    (v : Vector3d K) (tr t : T) (hT : pl.Trans = some t) :
    pl.Translate F M v tr = pl.Transform F M tr := by
  unfold Plane.Translate; rw [hT]

/-- Transform branch of `Rotate`. -/
theorem Plane.Rotate_some (F : FrameConsts K) (M : MatrixOps K T) (pl : Plane K T)
    (v : Vector3d K) (tr t : T) (hT : pl.Trans = some t) :
    pl.Rotate F M v tr = pl.Transform F M tr := by
  unfold Plane.Rotate; rw [hT]

/-- Transform branch of `Scale`. -/
theorem Plane.Scale_some (sqrt : K → K) (F : FrameConsts K) (M : MatrixOps K T)
    (pl : Plane K T) (v : Vector3d K) (tr t : T) (hT : pl.Trans = some t) :
    pl.Scale sqrt F M v tr = pl.Transform F M tr := by
  unfold Plane.Scale; rw [hT]

/-- The function `Transform` on a plane that has a transform. -/
theorem Plane.Transform_some (F : FrameConsts K) (M : MatrixOps K T) (pl : Plane K T)
    (tr t : T) (hT : pl.Trans = some t) :
    pl.Transform F M tr =
      Plane.Compute_BBox F { pl with Trans := some (M.Compose_Transforms t tr) } := by
  unfold Plane.Transform; rw [hT]

/-- The box that `Compute_BBox` assigns is determined by the clip list. -/
theorem Plane.Compute_BBox_BBox_congr (F : FrameConsts K) (p q : Plane K T)
    (h : p.Clip = q.Clip) : (p.Compute_BBox F).BBox = (q.Compute_BBox F).BBox := by
  unfold Plane.Compute_BBox
  rw [h]
  split <;> rfl

/-- C10. On a plane that has a transform `t`, each of `Translate`, `Rotate`
and `Scale` produces exactly the state `Transform(tr)` produces, whatever the
vector argument: normal and distance unchanged, transform
`Compose_Transforms(t, tr)`, box recomputed.  On a plane without a transform
each of them leaves the transform absent and the clip list alone and is
`Compute_BBox` applied to the plane with only normal and distance changed. -/
theorem Plane.lazy_transform_upgrade (sqrt : K → K) (F : FrameConsts K) (M : MatrixOps K T)
    (pl : Plane K T) (v : Vector3d K) (tr : T) :
    (∀ t : T, pl.Trans = some t →
      pl.Translate F M v tr = pl.Transform F M tr ∧
      pl.Rotate F M v tr = pl.Transform F M tr ∧
      pl.Scale sqrt F M v tr = pl.Transform F M tr ∧
      (∀ w : Vector3d K,
        pl.Translate F M w tr = pl.Translate F M v tr ∧
        pl.Rotate F M w tr = pl.Rotate F M v tr ∧
        pl.Scale sqrt F M w tr = pl.Scale sqrt F M v tr) ∧
      (pl.Transform F M tr).Normal_Vector = pl.Normal_Vector ∧
      (pl.Transform F M tr).Distance = pl.Distance ∧
      (pl.Transform F M tr).Trans = some (M.Compose_Transforms t tr) ∧
      (pl.Transform F M tr).Clip = pl.Clip ∧
      (pl.Transform F M tr).BBox = (pl.Compute_BBox F).BBox) ∧
    (pl.Trans = none →
      (pl.Translate F M v tr).Trans = none ∧
      (pl.Rotate F M v tr).Trans = none ∧
      (pl.Scale sqrt F M v tr).Trans = none ∧
      (pl.Translate F M v tr).Clip = pl.Clip ∧
      (pl.Rotate F M v tr).Clip = pl.Clip ∧
      (pl.Scale sqrt F M v tr).Clip = pl.Clip ∧
      pl.Translate F M v tr =
        Plane.Compute_BBox F { pl with Distance := pl.Distance - dot pl.Normal_Vector v } ∧
      pl.Rotate F M v tr =
        Plane.Compute_BBox F { pl with Normal_Vector := M.MTransDirection pl.Normal_Vector tr } ∧
      pl.Scale sqrt F M v tr =
        Plane.Compute_BBox F
          { pl with Normal_Vector :=
                      (pl.Normal_Vector.divv v).divs ((pl.Normal_Vector.divv v).length sqrt),
                    Distance := pl.Distance / (pl.Normal_Vector.divv v).length sqrt }) := by
  constructor
  · intro t hT
    refine ⟨Plane.Translate_some F M pl v tr t hT, Plane.Rotate_some F M pl v tr t hT,
      Plane.Scale_some sqrt F M pl v tr t hT, fun w => ⟨?_, ?_, ?_⟩, ?_, ?_, ?_, ?_, ?_⟩
    · rw [Plane.Translate_some F M pl w tr t hT, Plane.Translate_some F M pl v tr t hT]
    · rw [Plane.Rotate_some F M pl w tr t hT, Plane.Rotate_some F M pl v tr t hT]
    · rw [Plane.Scale_some sqrt F M pl w tr t hT, Plane.Scale_some sqrt F M pl v tr t hT]
    · rw [Plane.Transform_some F M pl tr t hT, Plane.Compute_BBox_Normal_Vector]
    · rw [Plane.Transform_some F M pl tr t hT, Plane.Compute_BBox_Distance]
    · rw [Plane.Transform_some F M pl tr t hT, Plane.Compute_BBox_Trans]
    · rw [Plane.Transform_some F M pl tr t hT, Plane.Compute_BBox_Clip]
    · rw [Plane.Transform_some F M pl tr t hT]
      exact Plane.Compute_BBox_BBox_congr F _ _ rfl
  · intro hT
    refine ⟨?_, ?_, ?_, ?_, ?_, ?_, Plane.Translate_none F M pl v tr hT,
      Plane.Rotate_none F M pl v tr hT, Plane.Scale_none sqrt F M pl v tr hT⟩
    · rw [Plane.Translate_none F M pl v tr hT, Plane.Compute_BBox_Trans]; exact hT
    · rw [Plane.Rotate_none F M pl v tr hT, Plane.Compute_BBox_Trans]; exact hT
    · rw [Plane.Scale_none sqrt F M pl v tr hT, Plane.Compute_BBox_Trans]; exact hT
    · rw [Plane.Translate_none F M pl v tr hT, Plane.Compute_BBox_Clip]
    · rw [Plane.Rotate_none F M pl v tr hT, Plane.Compute_BBox_Clip]
    · rw [Plane.Scale_none sqrt F M pl v tr hT, Plane.Compute_BBox_Clip]

/-- C10, evaluated: `Translate` by `(0,3,0)` on the plane that already carries
the translation `(0,2,0)` composes the two and keeps normal and distance; on
the constructor plane it leaves the transform absent. -/
theorem Plane.lazy_transform_upgrade_witness :
    (movedPlane.Translate sampleFrame translationOps ⟨0, 3, 0⟩ ⟨0, 3, 0⟩ =
        movedPlane.Transform sampleFrame translationOps ⟨0, 3, 0⟩ ∧
      (movedPlane.Transform sampleFrame translationOps ⟨0, 3, 0⟩).Trans = some ⟨0, 5, 0⟩) ∧
    (defaultPlane.Translate sampleFrame translationOps ⟨0, 3, 0⟩ ⟨0, 3, 0⟩).Trans = none :=
  have h := Plane.lazy_transform_upgrade Rat.sqrt sampleFrame translationOps movedPlane
    ⟨0, 3, 0⟩ ⟨0, 3, 0⟩
  have g := Plane.lazy_transform_upgrade Rat.sqrt sampleFrame translationOps defaultPlane
    ⟨0, 3, 0⟩ ⟨0, 3, 0⟩
  ⟨⟨(h.1 ⟨0, 2, 0⟩ rfl).1,
    by rw [(h.1 ⟨0, 2, 0⟩ rfl).2.2.2.2.2.2.1]; norm_num [translationOps, Vector3d.add]⟩,
   (g.2 rfl).1⟩

/-- C11, as stated, fails for `Invert`: on a plane whose clip list was filled
after its box was last computed, `Invert` leaves the old (unbounded) box in
place, which is not the box `Compute_BBox` assigns (that of the first clip
object). -/
theorem Plane.Invert_BBox_counterexample :
    clippedPlane.Trans = none ∧
    clippedPlane.Invert.BBox ≠ (clippedPlane.Invert.Compute_BBox sampleFrame).BBox := by
  refine ⟨rfl, ?_⟩
  simp [clippedPlane, Plane.Invert, Plane.Compute_BBox, sampleBox, clipBox]

/-- C11, amended: on a plane without a transform, whatever its box was, after
each of `Translate`, `Rotate` and `Scale` the box is the one `Compute_BBox`
assigns for the resulting plane: the unbounded box when the clip list is
empty, the box of the first clip object otherwise.  `Invert` leaves the box
field as it was, so afterwards it is the box `Compute_BBox` assigns exactly
when it was so before. -/
theorem Plane.direct_mutators_BBox (sqrt : K → K) (F : FrameConsts K) (M : MatrixOps K T)
    (pl : Plane K T) (v : Vector3d K) (tr : T) (hT : pl.Trans = none) :
    ((pl.Translate F M v tr).BBox = ((pl.Translate F M v tr).Compute_BBox F).BBox ∧
      (pl.Rotate F M v tr).BBox = ((pl.Rotate F M v tr).Compute_BBox F).BBox ∧
      (pl.Scale sqrt F M v tr).BBox = ((pl.Scale sqrt F M v tr).Compute_BBox F).BBox) ∧
    (pl.Clip = [] →
      (pl.Translate F M v tr).BBox =
        ⟨⟨-F.BOUND_HUGE / 2, -F.BOUND_HUGE / 2, -F.BOUND_HUGE / 2⟩,
         ⟨F.BOUND_HUGE, F.BOUND_HUGE, F.BOUND_HUGE⟩⟩ ∧
      (pl.Rotate F M v tr).BBox =
        ⟨⟨-F.BOUND_HUGE / 2, -F.BOUND_HUGE / 2, -F.BOUND_HUGE / 2⟩,
         ⟨F.BOUND_HUGE, F.BOUND_HUGE, F.BOUND_HUGE⟩⟩ ∧
      (pl.Scale sqrt F M v tr).BBox =
        ⟨⟨-F.BOUND_HUGE / 2, -F.BOUND_HUGE / 2, -F.BOUND_HUGE / 2⟩,
         ⟨F.BOUND_HUGE, F.BOUND_HUGE, F.BOUND_HUGE⟩⟩) ∧
    (∀ (c : ClipObject K) (cs : List (ClipObject K)), pl.Clip = c :: cs →
      (pl.Translate F M v tr).BBox = c.BBox ∧
      (pl.Rotate F M v tr).BBox = c.BBox ∧
      (pl.Scale sqrt F M v tr).BBox = c.BBox) ∧
    pl.Invert.BBox = pl.BBox ∧
    (pl.Invert.BBox = (pl.Invert.Compute_BBox F).BBox ↔ pl.BBox = (pl.Compute_BBox F).BBox) := by
  rw [Plane.Translate_none F M pl v tr hT, Plane.Rotate_none F M pl v tr hT,
    Plane.Scale_none sqrt F M pl v tr hT]
  refine ⟨⟨?_, ?_, ?_⟩, fun hC => ?_, fun c cs hC => ?_, rfl, ?_⟩
  rotate_right
  · rw [Plane.Compute_BBox_BBox_congr F pl.Invert pl rfl]
    exact Iff.rfl
  · unfold Plane.Compute_BBox; dsimp only; cases pl.Clip <;> rfl
  · unfold Plane.Compute_BBox; dsimp only; cases pl.Clip <;> rfl
  · unfold Plane.Compute_BBox; dsimp only; cases pl.Clip <;> rfl
  · unfold Plane.Compute_BBox; dsimp only; rw [hC]; exact ⟨rfl, rfl, rfl⟩
  · unfold Plane.Compute_BBox; dsimp only; rw [hC]; exact ⟨rfl, rfl, rfl⟩

/-- C11 amended, evaluated: `Translate` on the plane with the stale box
installs the box of the first clip object. -/
theorem Plane.direct_mutators_BBox_witness :
    (clippedPlane.Translate sampleFrame translationOps ⟨0, 2, 0⟩ ⟨0, 2, 0⟩).BBox = clipBox ∧
    (defaultPlane.Rotate sampleFrame translationOps ⟨0, 2, 0⟩ ⟨0, 2, 0⟩).BBox = sampleBox :=
  ⟨((Plane.direct_mutators_BBox Rat.sqrt sampleFrame translationOps clippedPlane
      ⟨0, 2, 0⟩ ⟨0, 2, 0⟩ rfl).2.2.1 ⟨clipBox, 0⟩ [⟨sampleBox, 1⟩] rfl).1,
   by
    have h := ((Plane.direct_mutators_BBox Rat.sqrt sampleFrame translationOps defaultPlane
      ⟨0, 2, 0⟩ ⟨0, 2, 0⟩ rfl).2.1 rfl).2.1
    rw [h]
    norm_num [sampleFrame, sampleBox]⟩

/-- C12. `Compute_BBox` looks at the clip list only: with an empty clip list
the box gets lower corner `-BOUND_HUGE/2` and side `BOUND_HUGE` on each axis,
whatever normal, distance and transform are; with a non-empty one it gets
exactly the box of the first clip object, the later ones having no
influence; and no field other than the box changes. -/
theorem Plane.Compute_BBox_spec (F : FrameConsts K) (pl : Plane K T) :
    (pl.Clip = [] →
      (pl.Compute_BBox F).BBox =
        ⟨⟨-F.BOUND_HUGE / 2, -F.BOUND_HUGE / 2, -F.BOUND_HUGE / 2⟩,
         ⟨F.BOUND_HUGE, F.BOUND_HUGE, F.BOUND_HUGE⟩⟩) ∧
    (∀ (c : ClipObject K) (cs : List (ClipObject K)), pl.Clip = c :: cs →
      (pl.Compute_BBox F).BBox = c.BBox) ∧
    (∀ q : Plane K T, q.Clip = pl.Clip → (q.Compute_BBox F).BBox = (pl.Compute_BBox F).BBox) ∧
    (∀ q : Plane K T, q.Clip.head? = pl.Clip.head? →
      (q.Compute_BBox F).BBox = (pl.Compute_BBox F).BBox) ∧
    (pl.Compute_BBox F).Normal_Vector = pl.Normal_Vector ∧
    (pl.Compute_BBox F).Distance = pl.Distance ∧
    (pl.Compute_BBox F).Trans = pl.Trans ∧
    (pl.Compute_BBox F).Clip = pl.Clip := by
  refine ⟨fun hC => ?_, fun c cs hC => ?_, fun q hq => Plane.Compute_BBox_BBox_congr F q pl hq,
    fun q hq => ?_, Plane.Compute_BBox_Normal_Vector F pl, Plane.Compute_BBox_Distance F pl,
    Plane.Compute_BBox_Trans F pl, Plane.Compute_BBox_Clip F pl⟩
  · unfold Plane.Compute_BBox; rw [hC]
  · unfold Plane.Compute_BBox; rw [hC]
  · unfold Plane.Compute_BBox
    cases hq1 : q.Clip with
    | nil =>
      cases hp1 : pl.Clip with
      | nil => rfl
      | cons c cs => rw [hq1, hp1] at hq; simp at hq
    | cons d ds =>
      cases hp1 : pl.Clip with
      | nil => rw [hq1, hp1] at hq; simp at hq
      | cons c cs =>
        rw [hq1, hp1] at hq
        simp only [List.head?_cons, Option.some.injEq] at hq
        simp only [hq]

/-- C12, evaluated: the two-object clip list gives the box of its first
object; the constructor plane gets the unbounded box. -/
theorem Plane.Compute_BBox_spec_witness :
    (clippedPlane.Compute_BBox sampleFrame).BBox = clipBox ∧
    ((Plane.new clipBox : Plane ℚ (Vector3d ℚ)).Compute_BBox sampleFrame).BBox = sampleBox :=
  ⟨(Plane.Compute_BBox_spec sampleFrame clippedPlane).2.1 ⟨clipBox, 0⟩ [⟨sampleBox, 1⟩] rfl,
   by
    have h := (Plane.Compute_BBox_spec sampleFrame
      (Plane.new clipBox : Plane ℚ (Vector3d ℚ))).1 rfl
    rw [h]
    norm_num [sampleFrame, sampleBox]⟩

/-- C13. One call of `Intersect` adds exactly 1 to `Ray_Plane_Tests` in every
case, adds exactly 1 to `Ray_Plane_Tests_Succeeded` when it returns true and
leaves that counter alone when it returns false, and changes no other
counter. -/
theorem Plane.Intersect_stats (F : FrameConsts K) (M : MatrixOps K T) (pl : Plane K T)
    (ray : BasicRay K) (d0 : K) (st : Stats) :
    (pl.Intersect F M ray d0 st).Thread IntStatsIndex.Ray_Plane_Tests =
      st IntStatsIndex.Ray_Plane_Tests + 1 ∧
    ((pl.Intersect F M ray d0 st).Thread IntStatsIndex.Ray_Plane_Tests_Succeeded =
        st IntStatsIndex.Ray_Plane_Tests_Succeeded + 1 ↔
      (pl.Intersect F M ray d0 st).hit = true) ∧
    ((pl.Intersect F M ray d0 st).Thread IntStatsIndex.Ray_Plane_Tests_Succeeded =
        st IntStatsIndex.Ray_Plane_Tests_Succeeded ↔
      (pl.Intersect F M ray d0 st).hit = false) ∧
    (∀ n : Nat, (pl.Intersect F M ray d0 st).Thread (IntStatsIndex.Other n) =
      st (IntStatsIndex.Other n)) := by
  rw [Plane.Intersect_eq]
  split_ifs <;> simp [Stats.incr]

/-- C14. `Invert` negates each component of the normal and the distance and
leaves transform, clip list and box untouched.  With `0 < EPSILON` and
`f = dot(normal, P') + distance` on the original plane: if `|f| ≥ EPSILON`,
`Inside(P)` on the inverted plane is the negation of `Inside(P)` on the
original; if `|f| < EPSILON`, both report the point inside. -/
theorem Plane.Invert_flips (F : FrameConsts K) (M : MatrixOps K T) (h0 : 0 < F.EPSILON)
    (pl : Plane K T) :
    pl.Invert.Normal_Vector =
      ⟨-pl.Normal_Vector.x, -pl.Normal_Vector.y, -pl.Normal_Vector.z⟩ ∧
    pl.Invert.Distance = -pl.Distance ∧
    pl.Invert.Trans = pl.Trans ∧
    pl.Invert.Clip = pl.Clip ∧
    pl.Invert.BBox = pl.BBox ∧
    (∀ P : Vector3d K,
      F.EPSILON ≤ |dot pl.Normal_Vector (pl.localPoint M P) + pl.Distance| →
        pl.Invert.Inside F M P = !(pl.Inside F M P)) ∧
    (∀ P : Vector3d K,
      |dot pl.Normal_Vector (pl.localPoint M P) + pl.Distance| < F.EPSILON →
        pl.Inside F M P = true ∧ pl.Invert.Inside F M P = true) := by
  have hD : pl.Invert.Distance = -pl.Distance := by
    simp [Plane.Invert]
  have hI : ∀ P : Vector3d K, pl.Invert.Inside F M P = true ↔
      -(dot pl.Normal_Vector (pl.localPoint M P) + pl.Distance) < F.EPSILON := by
    intro P
    rw [Plane.Inside_iff]
    have : dot pl.Invert.Normal_Vector (pl.Invert.localPoint M P) + pl.Invert.Distance =
        -(dot pl.Normal_Vector (pl.localPoint M P) + pl.Distance) := by
      rw [hD]
      simp only [Plane.localPoint, Plane.Invert, Vector3d.invert, dot]
      ring
    rw [this]
  refine ⟨rfl, hD, rfl, rfl, rfl, fun P hf => ?_, fun P hf => ?_⟩
  · rw [Bool.eq_iff_iff, hI, Bool.not_eq_true', ← Bool.not_eq_true, Plane.Inside_iff]
    rcases le_abs.mp hf with h | h
    · constructor
      · intro _; exact not_lt.mpr h
      · intro _; linarith
    · constructor
      · intro h2; linarith
      · intro h2; exact absurd (by linarith) h2
  · rw [hI, Plane.Inside_iff]
    have := abs_lt.mp hf
    constructor <;> linarith

/-- C14, evaluated on the constructor plane: `(0,1,0)` is outside and becomes
inside after `Invert`; `(0,0,0)` is inside before and after. -/
theorem Plane.Invert_flips_witness :
    0 < sampleFrame.EPSILON ∧
    defaultPlane.Invert.Inside sampleFrame translationOps ⟨0, 1, 0⟩ =
      !(defaultPlane.Inside sampleFrame translationOps ⟨0, 1, 0⟩) ∧
    (defaultPlane.Inside sampleFrame translationOps ⟨0, 0, 0⟩ = true ∧
      defaultPlane.Invert.Inside sampleFrame translationOps ⟨0, 0, 0⟩ = true) :=
  have h := Plane.Invert_flips sampleFrame translationOps (by norm_num [sampleFrame]) defaultPlane
  ⟨by norm_num [sampleFrame],
   h.2.2.2.2.2.1 ⟨0, 1, 0⟩
     (by norm_num [sampleFrame, defaultPlane, Plane.new, Plane.localPoint, dot]),
   h.2.2.2.2.2.2 ⟨0, 0, 0⟩
     (by norm_num [sampleFrame, defaultPlane, Plane.new, Plane.localPoint, dot])⟩

/-- A vector of squared length 1 is not `(0,0,0)`. -/
theorem ne_zero_of_dot_self_eq_one {a : Vector3d K} (h : dot a a = 1) : a ≠ ⟨0, 0, 0⟩ := by
  intro h2
  rw [h2] at h
  simp [dot] at h

/-- The member `length()` is `sqrt` of the squared length. -/
theorem Vector3d.length_eq (sqrt : K → K) (a : Vector3d K) : a.length sqrt = sqrt (dot a a) :=
  rfl

/-- C15. `Normal` does not depend on the intersection record.  Without a
transform it returns the stored normal.  With a transform `t` it returns
`MTransNormal(normal, t)` divided by its own length; when that image is not
zero (and `sqrt` is the non-negative square root at its squared length, with
`sqrt 1 = 1`) the result has squared length 1 and `length()` 1. -/
theorem Plane.Normal_spec (sqrt : K → K) (M : MatrixOps K T) (pl : Plane K T) :
    (pl.Trans = none → ∀ i : Intersection K T, pl.Normal sqrt M i = pl.Normal_Vector) ∧
    (∀ t : T, pl.Trans = some t → ∀ i : Intersection K T,
      pl.Normal sqrt M i =
        (M.MTransNormal pl.Normal_Vector t).divs
          ((M.MTransNormal pl.Normal_Vector t).length sqrt)) ∧
    (∀ t : T, pl.Trans = some t →
      M.MTransNormal pl.Normal_Vector t ≠ ⟨0, 0, 0⟩ →
      0 ≤ (M.MTransNormal pl.Normal_Vector t).length sqrt →
      (M.MTransNormal pl.Normal_Vector t).length sqrt *
          (M.MTransNormal pl.Normal_Vector t).length sqrt =
        dot (M.MTransNormal pl.Normal_Vector t) (M.MTransNormal pl.Normal_Vector t) →
      sqrt 1 = 1 →
      ∀ i : Intersection K T,
        dot (pl.Normal sqrt M i) (pl.Normal sqrt M i) = 1 ∧
        (pl.Normal sqrt M i).length sqrt = 1) ∧
    (∀ i j : Intersection K T, pl.Normal sqrt M i = pl.Normal sqrt M j) := by
  have hS : ∀ t : T, pl.Trans = some t → ∀ i : Intersection K T,
      pl.Normal sqrt M i =
        (M.MTransNormal pl.Normal_Vector t).divs
          ((M.MTransNormal pl.Normal_Vector t).length sqrt) := by
    intro t hT i
    unfold Plane.Normal Vector3d.normalize
    rw [hT]
  refine ⟨fun hT i => ?_, hS, fun t hT hw h0 hs h1 i => ?_, fun i j => rfl⟩
  · unfold Plane.Normal
    rw [hT]
  · have hL := pos_of_mul_self_pos h0 hs (dot_self_pos hw)
    have hu := dot_divs_self hL hs
    rw [hS t hT i]
    exact ⟨hu, by rw [Vector3d.length_eq, hu, h1]⟩

/-- C15, evaluated: on the plane carrying a translation the normal is
`(0,1,0)` for any record, with squared length 1. -/
theorem Plane.Normal_spec_witness :
    movedPlane.Normal Rat.sqrt translationOps ⟨5, ⟨0, 0, 0⟩, movedPlane⟩ = ⟨0, 1, 0⟩ ∧
    dot (movedPlane.Normal Rat.sqrt translationOps ⟨5, ⟨0, 0, 0⟩, movedPlane⟩)
        (movedPlane.Normal Rat.sqrt translationOps ⟨5, ⟨0, 0, 0⟩, movedPlane⟩) = 1 ∧
    defaultPlane.Normal Rat.sqrt translationOps ⟨5, ⟨0, 0, 0⟩, movedPlane⟩ = ⟨0, 1, 0⟩ :=
  have h := Plane.Normal_spec Rat.sqrt translationOps movedPlane
  have g := Plane.Normal_spec Rat.sqrt translationOps defaultPlane
  ⟨by
    rw [h.2.1 ⟨0, 2, 0⟩ rfl]
    norm_num [movedPlane, translationOps, Vector3d.divs, Vector3d.length, Rat.sqrt],
   (h.2.2.1 ⟨0, 2, 0⟩ rfl
      (by simp [movedPlane, translationOps])
      (by norm_num [movedPlane, translationOps, Vector3d.length, Rat.sqrt])
      (by norm_num [movedPlane, translationOps, Vector3d.length, dot, Rat.sqrt])
      (by norm_num [Rat.sqrt])
      ⟨5, ⟨0, 0, 0⟩, movedPlane⟩).1,
   g.1 rfl _⟩

/-- One step of the unit-normal invariant: each direct mutator keeps a
squared length of 1 on a plane without a transform. -/
theorem Plane.unit_normal_step (sqrt : K → K) (F : FrameConsts K) (M : MatrixOps K T)
    (pl : Plane K T) (hT : pl.Trans = none)
    (hn : dot pl.Normal_Vector pl.Normal_Vector = 1) :
    (∀ (v : Vector3d K) (tr : T),
      dot (pl.Translate F M v tr).Normal_Vector (pl.Translate F M v tr).Normal_Vector = 1) ∧
    dot pl.Invert.Normal_Vector pl.Invert.Normal_Vector = 1 ∧
    (∀ (s : Vector3d K) (tr : T), s.x ≠ 0 → s.y ≠ 0 → s.z ≠ 0 →
      0 ≤ (pl.Normal_Vector.divv s).length sqrt →
      (pl.Normal_Vector.divv s).length sqrt * (pl.Normal_Vector.divv s).length sqrt =
        dot (pl.Normal_Vector.divv s) (pl.Normal_Vector.divv s) →
      dot (pl.Scale sqrt F M s tr).Normal_Vector (pl.Scale sqrt F M s tr).Normal_Vector = 1) ∧
    (∀ (v : Vector3d K) (tr : T),
      (∀ a : Vector3d K, dot (M.MTransDirection a tr) (M.MTransDirection a tr) = dot a a) →
      dot (pl.Rotate F M v tr).Normal_Vector (pl.Rotate F M v tr).Normal_Vector = 1) := by
  refine ⟨fun v tr => ?_, ?_, fun s tr hx hy hz h0 hs => ?_, fun v tr hR => ?_⟩
  · rw [Plane.Translate_none F M pl v tr hT, Plane.Compute_BBox_Normal_Vector]
    exact hn
  · rw [← hn]
    simp only [Plane.Invert, Vector3d.invert, dot]
    ring
  · rw [Plane.Scale_none sqrt F M pl s tr hT, Plane.Compute_BBox_Normal_Vector]
    exact dot_divs_self
      (pos_of_mul_self_pos h0 hs
        (dot_self_pos (divv_ne_zero hx hy hz (ne_zero_of_dot_self_eq_one hn)))) hs
  · rw [Plane.Rotate_none F M pl v tr hT, Plane.Compute_BBox_Normal_Vector]
    exact (hR pl.Normal_Vector).trans hn

/-- Every plane reachable by the direct mutators has no transform and a
normal of squared length 1. -/
theorem Plane.DirectReachable.unit (sqrt : K → K) (F : FrameConsts K) (M : MatrixOps K T)
    (pl : Plane K T) (h : Plane.DirectReachable sqrt F M pl) :
    pl.Trans = none ∧ dot pl.Normal_Vector pl.Normal_Vector = 1 := by
  induction h with
  | new bb => exact ⟨rfl, by simp [Plane.new, dot]⟩
  | translate v tr _ ih =>
    refine ⟨?_, (Plane.unit_normal_step sqrt F M _ ih.1 ih.2).1 v tr⟩
    rw [Plane.Translate_none F M _ v tr ih.1, Plane.Compute_BBox_Trans]
    exact ih.1
  | invert _ ih => exact ⟨ih.1, (Plane.unit_normal_step sqrt F M _ ih.1 ih.2).2.1⟩
  | scale s tr hx hy hz h0 hs _ ih =>
    refine ⟨?_, (Plane.unit_normal_step sqrt F M _ ih.1 ih.2).2.2.1 s tr hx hy hz h0 hs⟩
    rw [Plane.Scale_none sqrt F M _ s tr ih.1, Plane.Compute_BBox_Trans]
    exact ih.1
  | rotate v tr hR _ ih =>
    refine ⟨?_, (Plane.unit_normal_step sqrt F M _ ih.1 ih.2).2.2.2 v tr hR⟩
    rw [Plane.Rotate_none F M _ v tr ih.1, Plane.Compute_BBox_Trans]
    exact ih.1

/-- C17. The constructor's normal has squared length 1 (its `length()` is
`sqrt 1`).  On a plane without a transform whose normal has squared length 1,
the normal still has squared length 1 after `Translate`, after `Invert`,
after `Scale` by a vector without zero component (with `sqrt` the
non-negative square root at the value it is applied to), and after `Rotate`
by a transform whose direction mapping preserves squared length.  Hence
every plane reachable from the constructor by these mutators has no
transform and a normal of squared length 1, and of `length()` 1 when
`sqrt 1 = 1`. -/
theorem Plane.unit_normal_invariant (sqrt : K → K) (F : FrameConsts K) (M : MatrixOps K T) :
    (∀ bb : BoundingBox K,
      dot (Plane.new bb : Plane K T).Normal_Vector (Plane.new bb : Plane K T).Normal_Vector = 1 ∧
      (Plane.new bb : Plane K T).Normal_Vector.length sqrt = sqrt 1) ∧
    (∀ pl : Plane K T, pl.Trans = none → dot pl.Normal_Vector pl.Normal_Vector = 1 →
      (∀ (v : Vector3d K) (tr : T),
        dot (pl.Translate F M v tr).Normal_Vector (pl.Translate F M v tr).Normal_Vector = 1) ∧
      dot pl.Invert.Normal_Vector pl.Invert.Normal_Vector = 1 ∧
      (∀ (s : Vector3d K) (tr : T), s.x ≠ 0 → s.y ≠ 0 → s.z ≠ 0 →
        0 ≤ (pl.Normal_Vector.divv s).length sqrt →
        (pl.Normal_Vector.divv s).length sqrt * (pl.Normal_Vector.divv s).length sqrt =
          dot (pl.Normal_Vector.divv s) (pl.Normal_Vector.divv s) →
        dot (pl.Scale sqrt F M s tr).Normal_Vector (pl.Scale sqrt F M s tr).Normal_Vector = 1) ∧
      (∀ (v : Vector3d K) (tr : T),
        (∀ a : Vector3d K, dot (M.MTransDirection a tr) (M.MTransDirection a tr) = dot a a) →
        dot (pl.Rotate F M v tr).Normal_Vector (pl.Rotate F M v tr).Normal_Vector = 1)) ∧
    (∀ pl : Plane K T, Plane.DirectReachable sqrt F M pl →
      pl.Trans = none ∧ dot pl.Normal_Vector pl.Normal_Vector = 1) ∧
    (sqrt 1 = 1 → ∀ pl : Plane K T, Plane.DirectReachable sqrt F M pl →
      pl.Normal_Vector.length sqrt = 1) := by
  refine ⟨fun bb => ⟨by simp [Plane.new, dot], ?_⟩,
    fun pl hT hn => Plane.unit_normal_step sqrt F M pl hT hn,
    fun pl h => Plane.DirectReachable.unit sqrt F M pl h, fun h1 pl h => ?_⟩
  · rw [Vector3d.length_eq]
    simp [Plane.new, dot]
  · rw [Vector3d.length_eq, (Plane.DirectReachable.unit sqrt F M pl h).2, h1]

/-- C17, evaluated: the constructor plane translated by `(0,2,0)`, inverted and
scaled by `(1,2,1)` with the rational square root has a normal of squared
length 1. -/
theorem Plane.unit_normal_invariant_witness :
    dot ((defaultPlane.Translate sampleFrame translationOps ⟨0, 2, 0⟩ ⟨0, 2, 0⟩).Invert.Scale
          Rat.sqrt sampleFrame translationOps ⟨1, 2, 1⟩ ⟨0, 0, 0⟩).Normal_Vector
        ((defaultPlane.Translate sampleFrame translationOps ⟨0, 2, 0⟩ ⟨0, 2, 0⟩).Invert.Scale
          Rat.sqrt sampleFrame translationOps ⟨1, 2, 1⟩ ⟨0, 0, 0⟩).Normal_Vector = 1 :=
  ((Plane.unit_normal_invariant Rat.sqrt sampleFrame translationOps).2.2.1 _
    (Plane.DirectReachable.scale ⟨1, 2, 1⟩ ⟨0, 0, 0⟩ (by norm_num) (by norm_num) (by norm_num)
      (by norm_num [defaultPlane, Plane.new, Plane.Translate, Plane.Compute_BBox, Plane.Invert,
            Vector3d.invert, Vector3d.divv, Vector3d.length, Rat.sqrt])
      (by norm_num [defaultPlane, Plane.new, Plane.Translate, Plane.Compute_BBox, Plane.Invert,
            Vector3d.invert, Vector3d.divv, Vector3d.length, dot, Rat.sqrt])
      (Plane.DirectReachable.invert
        (Plane.DirectReachable.translate ⟨0, 2, 0⟩ ⟨0, 2, 0⟩
          (Plane.DirectReachable.new sampleBox))))).2

/-- A successful `Intersect` returns the depth of the plane equation, in
range, on a ray that is not near-parallel. -/
theorem Plane.Intersect_hit (F : FrameConsts K) (M : MatrixOps K T) (pl : Plane K T)
    (ray : BasicRay K) (d0 : K) (st : Stats)
    (h : (pl.Intersect F M ray d0 st).hit = true) :
    F.EPSILON ≤ |dot pl.Normal_Vector (pl.localDirection M ray)| ∧
    (pl.Intersect F M ray d0 st).Depth = pl.specDepth M ray := by
  rw [Plane.Intersect_eq] at h ⊢
  split_ifs at h ⊢ with h1 h2
  exact ⟨not_lt.mp h1, rfl⟩

/-- C18. On a plane without a transform, with `0 < EPSILON`, when `Intersect`
succeeds with depth `t` the point `H = origin + t * direction` (the one
`All_Intersections` records) satisfies `dot(normal, H) + distance = 0`
exactly, `t` is the only parameter along the ray with that property,
`Inside(H)` is true, and `Inside(H)` is still true after `Invert`. -/
theorem Plane.hit_point_on_plane (F : FrameConsts K) (M : MatrixOps K T)
    (PIC : Vector3d K → List (ClipObject K) → Stats → Bool × Stats)
    (h0 : 0 < F.EPSILON) (pl : Plane K T) (ray : BasicRay K) (d0 : K) (st : Stats)
    (hT : pl.Trans = none) (hhit : (pl.Intersect F M ray d0 st).hit = true) :
    dot pl.Normal_Vector (ray.Evaluate (pl.Intersect F M ray d0 st).Depth) + pl.Distance = 0 ∧
    (∀ s : K, dot pl.Normal_Vector (ray.Evaluate s) + pl.Distance = 0 →
      s = (pl.Intersect F M ray d0 st).Depth) ∧
    pl.Inside F M (ray.Evaluate (pl.Intersect F M ray d0 st).Depth) = true ∧
    pl.Invert.Inside F M (ray.Evaluate (pl.Intersect F M ray d0 st).Depth) = true ∧
    (∀ stack : List (Intersection K T),
      (pl.All_Intersections F M PIC ray stack d0 st).found = true →
      (pl.All_Intersections F M PIC ray stack d0 st).Depth_Stack =
        ⟨(pl.Intersect F M ray d0 st).Depth,
          ray.Evaluate (pl.Intersect F M ray d0 st).Depth, pl⟩ :: stack) := by
  obtain ⟨hpar, hdep⟩ := Plane.Intersect_hit F M pl ray d0 st hhit
  simp only [Plane.localDirection, hT] at hpar
  have hne : dot pl.Normal_Vector ray.Direction ≠ 0 := by
    intro h
    rw [h, abs_zero] at hpar
    exact absurd h0 (not_lt.mpr hpar)
  have hlin : ∀ s : K, dot pl.Normal_Vector (ray.Evaluate s) + pl.Distance =
      (dot pl.Normal_Vector ray.Origin + pl.Distance) + s * dot pl.Normal_Vector ray.Direction := by
    intro s
    simp only [dot, BasicRay.Evaluate, Vector3d.add, Vector3d.smul]
    ring
  have hH : dot pl.Normal_Vector (ray.Evaluate (pl.Intersect F M ray d0 st).Depth)
      + pl.Distance = 0 := by
    rw [hlin, hdep]
    simp only [Plane.specDepth, Plane.localOrigin, Plane.localDirection, hT]
    field_simp
    ring
  refine ⟨hH, fun s hs => ?_, ?_, ?_, fun stack hf => ?_⟩
  · have h1 := hlin s
    have h2 := hlin (pl.Intersect F M ray d0 st).Depth
    rw [hs] at h1
    rw [hH] at h2
    have h3 : (s - (pl.Intersect F M ray d0 st).Depth) * dot pl.Normal_Vector ray.Direction = 0 := by
      linear_combination h2 - h1
    rcases mul_eq_zero.mp h3 with h4 | h4
    · exact sub_eq_zero.mp h4
    · exact absurd h4 hne
  · rw [Plane.Inside_iff]
    simp only [Plane.localPoint, hT]
    rw [hH]
    exact h0
  · rw [Plane.Inside_iff]
    have : dot pl.Invert.Normal_Vector
          (pl.Invert.localPoint M (ray.Evaluate (pl.Intersect F M ray d0 st).Depth))
        + pl.Invert.Distance
        = -(dot pl.Normal_Vector (ray.Evaluate (pl.Intersect F M ray d0 st).Depth)
            + pl.Distance) := by
      simp only [Plane.localPoint, Plane.Invert, hT, Vector3d.invert, dot]
      ring
    rw [this, hH, neg_zero]
    exact h0
  · revert hf
    unfold Plane.All_Intersections
    dsimp only
    split_ifs <;> simp

/-- C18, evaluated: the hit point of the down ray on the constructor plane is
on the plane and inside, before and after `Invert`. -/
theorem Plane.hit_point_on_plane_witness :
    dot defaultPlane.Normal_Vector
        (downRay.Evaluate (defaultPlane.Intersect sampleFrame translationOps downRay 0
          zeroStats).Depth) + defaultPlane.Distance = 0 ∧
    defaultPlane.Invert.Inside sampleFrame translationOps
        (downRay.Evaluate (defaultPlane.Intersect sampleFrame translationOps downRay 0
          zeroStats).Depth) = true :=
  have h := Plane.hit_point_on_plane sampleFrame translationOps sampleClip
    (by norm_num [sampleFrame]) defaultPlane downRay 0 zeroStats rfl
    (by
      rw [Plane.Intersect_eq]
      norm_num [Plane.specDepth, Plane.localOrigin, Plane.localDirection, defaultPlane,
        Plane.new, downRay, dot, sampleFrame, DEPTH_TOLERANCE])
  ⟨h.1, h.2.2.2.1⟩

/-- C19. `Intersect` on the inverted plane gives the same flag and the same
depth as on the original plane, for every ray; the whole outcome (flag,
depth cell, counters) is the same. -/
theorem Plane.Intersect_Invert (F : FrameConsts K) (M : MatrixOps K T) (pl : Plane K T)
    (ray : BasicRay K) (d0 : K) (st : Stats) :
    (pl.Invert.Intersect F M ray d0 st).hit = (pl.Intersect F M ray d0 st).hit ∧
    (pl.Invert.Intersect F M ray d0 st).Depth = (pl.Intersect F M ray d0 st).Depth ∧
    pl.Invert.Intersect F M ray d0 st = pl.Intersect F M ray d0 st := by
  have hn : dot pl.Invert.Normal_Vector (pl.Invert.localDirection M ray) =
      -dot pl.Normal_Vector (pl.localDirection M ray) := by
    simp only [Plane.localDirection, Plane.Invert, Vector3d.invert, dot]
    ring
  have hd : pl.Invert.specDepth M ray = pl.specDepth M ray := by
    unfold Plane.specDepth
    rw [hn]
    have : dot pl.Invert.Normal_Vector (pl.Invert.localOrigin M ray) + pl.Invert.Distance =
        -(dot pl.Normal_Vector (pl.localOrigin M ray) + pl.Distance) := by
      simp only [Plane.localOrigin, Plane.Invert, Vector3d.invert, dot]
      ring
    rw [this, neg_div_neg_eq]
  have h : pl.Invert.Intersect F M ray d0 st = pl.Intersect F M ray d0 st := by
    rw [Plane.Intersect_eq, Plane.Intersect_eq, hn, hd, abs_neg]
  rw [h]
  exact ⟨rfl, rfl, rfl⟩

/-- C20. A plane carrying a transform `t` whose inverse point map and inverse
direction map are the identity gives the same `Intersect` outcome and the
same `Inside` result as the plane with the same normal and distance and no
transform.  When the inverse point map `A` and inverse direction map `B` of
`t` satisfy `A(o + s*v) = A(o) + s*B(v)` and `0 < EPSILON`, the world-space
hit point `H` of a successful `Intersect` satisfies
`dot(normal, A(H)) + distance = 0`. -/
theorem Plane.transform_refines_direct (F : FrameConsts K) (M : MatrixOps K T)
    (n : Vector3d K) (d : K) (t : T) (clip : List (ClipObject K)) (bb : BoundingBox K) :
    ((∀ P : Vector3d K, M.MInvTransPoint P t = P) →
      (∀ D : Vector3d K, M.MInvTransDirection D t = D) →
      (∀ (ray : BasicRay K) (d0 : K) (st : Stats),
        (⟨n, d, some t, clip, bb⟩ : Plane K T).Intersect F M ray d0 st =
          (⟨n, d, none, clip, bb⟩ : Plane K T).Intersect F M ray d0 st) ∧
      (∀ P : Vector3d K,
        (⟨n, d, some t, clip, bb⟩ : Plane K T).Inside F M P =
          (⟨n, d, none, clip, bb⟩ : Plane K T).Inside F M P)) ∧
    (0 < F.EPSILON →
      (∀ (o v : Vector3d K) (s : K),
        M.MInvTransPoint (o.add (v.smul s)) t =
          (M.MInvTransPoint o t).add ((M.MInvTransDirection v t).smul s)) →
      ∀ (ray : BasicRay K) (d0 : K) (st : Stats),
        ((⟨n, d, some t, clip, bb⟩ : Plane K T).Intersect F M ray d0 st).hit = true →
        dot n (M.MInvTransPoint
            (ray.Evaluate ((⟨n, d, some t, clip, bb⟩ : Plane K T).Intersect F M ray d0 st).Depth) t)
          + d = 0) := by
  constructor
  · intro hP hD
    constructor
    · intro ray d0 st
      rw [Plane.Intersect_eq, Plane.Intersect_eq]
      simp only [Plane.specDepth, Plane.localOrigin, Plane.localDirection, hP, hD]
    · intro P
      rw [Bool.eq_iff_iff, Plane.Inside_iff, Plane.Inside_iff]
      simp only [Plane.localPoint, hP]
  · intro h0 hA ray d0 st hhit
    obtain ⟨hpar, hdep⟩ := Plane.Intersect_hit F M _ ray d0 st hhit
    simp only [Plane.localDirection] at hpar
    have hne : dot n (M.MInvTransDirection ray.Direction t) ≠ 0 := by
      intro h
      rw [h, abs_zero] at hpar
      exact absurd h0 (not_lt.mpr hpar)
    rw [hdep, BasicRay.Evaluate, hA]
    simp only [Plane.specDepth, Plane.localOrigin, Plane.localDirection]
    have hlin : ∀ (a b : Vector3d K) (s : K),
        dot n (a.add (b.smul s)) + d = (dot n a + d) + s * dot n b := by
      intro a b s
      simp only [dot, Vector3d.add, Vector3d.smul]
      ring
    rw [hlin]
    field_simp
    ring

/-- C20, evaluated with translations: the zero translation is the identity, so
the plane carrying it answers like the constructor plane; the plane carrying
the translation `(0,2,0)` is hit at a point whose local image is on the local
plane. -/
theorem Plane.transform_refines_direct_witness :
    ((⟨⟨0, 1, 0⟩, 0, some ⟨0, 0, 0⟩, [], sampleBox⟩ : Plane ℚ (Vector3d ℚ)).Intersect
        sampleFrame translationOps downRay 0 zeroStats =
      (⟨⟨0, 1, 0⟩, 0, none, [], sampleBox⟩ : Plane ℚ (Vector3d ℚ)).Intersect
        sampleFrame translationOps downRay 0 zeroStats) ∧
    dot (⟨0, 1, 0⟩ : Vector3d ℚ) (translationOps.MInvTransPoint
        (downRay.Evaluate ((⟨⟨0, 1, 0⟩, 0, some ⟨0, 2, 0⟩, [], sampleBox⟩ :
          Plane ℚ (Vector3d ℚ)).Intersect sampleFrame translationOps downRay 0 zeroStats).Depth)
        ⟨0, 2, 0⟩) + 0 = 0 :=
  ⟨((Plane.transform_refines_direct sampleFrame translationOps ⟨0, 1, 0⟩ 0 ⟨0, 0, 0⟩ []
        sampleBox).1
      (fun P => by cases P; simp [translationOps])
      (fun D => rfl)).1 downRay 0 zeroStats,
   (Plane.transform_refines_direct sampleFrame translationOps ⟨0, 1, 0⟩ 0 ⟨0, 2, 0⟩ []
        sampleBox).2
      (by norm_num [sampleFrame])
      (fun o v s => by
        simp only [translationOps, Vector3d.add, Vector3d.smul, Vector3d.mk.injEq]
        refine ⟨?_, ?_, ?_⟩ <;> ring)
      downRay 0 zeroStats
      (by
        rw [Plane.Intersect_eq]
        norm_num [Plane.specDepth, Plane.localOrigin, Plane.localDirection, translationOps,
          downRay, dot, sampleFrame, DEPTH_TOLERANCE])⟩

/-! ### Plane objects in memory -/

/-- Value of an object whose `Trans` is NULL. -/
theorem Plane.deref_of_none (heap : List T) (p : Plane K Nat) (h : p.Trans = none) :
    Plane.deref heap p = some ⟨p.Normal_Vector, p.Distance, none, p.Clip, p.BBox⟩ := by
  unfold Plane.deref; rw [h]

/-- Value of an object whose `Trans` is an allocated address. -/
theorem Plane.deref_of_some (heap : List T) (p : Plane K Nat) (a : Nat) (t : T)
    (h : p.Trans = some a) (ht : heap[a]? = some t) :
    Plane.deref heap p = some ⟨p.Normal_Vector, p.Distance, some t, p.Clip, p.BBox⟩ := by
  unfold Plane.deref; rw [h]; dsimp only; rw [ht]

/-- The function `Compute_BBox` on an object is `Compute_BBox` on its value. -/
theorem Plane.deref_Compute_BBox (F : FrameConsts K) (heap : List T) (p : Plane K Nat) :
    Plane.deref heap (Plane.Compute_BBox F p) =
      (Plane.deref heap p).map (fun pv => Plane.Compute_BBox F pv) := by
  rcases p with ⟨n, d, tr, clip, bb⟩
  unfold Plane.deref Plane.Compute_BBox
  cases tr with
  | none => cases clip <;> rfl
  | some a =>
    cases clip <;> dsimp only <;> cases heap[a]? <;> rfl

/-- The function `Translate` on an object in memory has a result whenever
the object has a value, and the result denotes `Translate` of that value. -/
theorem Plane.TranslateAt_deref (F : FrameConsts K) (M : MatrixOps K T) (heap : List T)
    (p : Plane K Nat) (pv : Plane K T) (v : Vector3d K) (tr : T)
    (hp : Plane.deref heap p = some pv) :
    (Plane.TranslateAt F M heap p v tr).isSome = true ∧
    ∀ (q : Plane K Nat) (heap2 : List T), Plane.TranslateAt F M heap p v tr = some (q, heap2) →
      Plane.deref heap2 q = some (pv.Translate F M v tr) := by
  rcases p with ⟨n, d, trp, clip, bb⟩
  cases trp with
  | none =>
    rw [Plane.deref_of_none heap _ rfl] at hp
    simp only [Option.some.injEq] at hp
    subst hp
    refine ⟨rfl, fun q heap2 h => ?_⟩
    simp only [Plane.TranslateAt, Option.some.injEq, Prod.mk.injEq] at h
    obtain ⟨rfl, rfl⟩ := h
    rw [Plane.deref_Compute_BBox, Plane.deref_of_none heap _ rfl]
    rfl
  | some a =>
    cases ht : heap[a]? with
    | none =>
      simp [Plane.deref, ht] at hp
    | some t =>
      rw [Plane.deref_of_some heap _ a t rfl ht] at hp
      simp only [Option.some.injEq] at hp
      subst hp
      have ha : a < heap.length := (List.getElem?_eq_some_iff.mp ht).1
      refine ⟨by simp [Plane.TranslateAt, ht], fun q heap2 h => ?_⟩
      simp only [Plane.TranslateAt, ht, Option.some.injEq, Prod.mk.injEq] at h
      obtain ⟨rfl, rfl⟩ := h
      rw [Plane.deref_Compute_BBox,
        Plane.deref_of_some _ _ a (M.Compose_Transforms t tr) rfl (by simp [List.getElem?_set, ha])]
      rfl

/-- C16. For a plane object `p` with value `pv`, and `Copy_Transform`
returning an equal-valued transform: `Copy` has a result `q`; `q` has the
same normal, distance, clip list and box, a NULL transform exactly when `p`
has one and otherwise a transform at an address different from that of `p`;
`q` and `p` both denote `pv` afterwards, so `Intersect` and `Inside` on the
copy agree with `p` for every ray and point.  `Translate` on the copy then
has a result, the copy denotes `Translate` of `pv`, and `p` still denotes
`pv`: its `Intersect` outcome for every ray is what it was. -/
theorem Plane.Copy_independent (F : FrameConsts K) (M : MatrixOps K T)
    (hC : ∀ t : T, M.Copy_Transform t = t)
    (heap : List T) (p : Plane K Nat) (pv : Plane K T)
    (hp : Plane.deref heap p = some pv) :
    (Plane.Copy M heap p).isSome = true ∧
    ∀ (q : Plane K Nat) (heap1 : List T), Plane.Copy M heap p = some (q, heap1) →
      q.Normal_Vector = p.Normal_Vector ∧ q.Distance = p.Distance ∧
      q.Clip = p.Clip ∧ q.BBox = p.BBox ∧
      (q.Trans = none ↔ p.Trans = none) ∧
      (∀ a : Nat, p.Trans = some a → q.Trans ≠ some a) ∧
      Plane.deref heap1 q = some pv ∧
      Plane.deref heap1 p = some pv ∧
      (∀ (ray : BasicRay K) (d0 : K) (st : Stats),
        Plane.IntersectAt F M heap1 q ray d0 st = Plane.IntersectAt F M heap p ray d0 st) ∧
      (∀ P : Vector3d K, Plane.InsideAt F M heap1 q P = Plane.InsideAt F M heap p P) ∧
      (∀ (v : Vector3d K) (tr : T),
        (Plane.TranslateAt F M heap1 q v tr).isSome = true ∧
        ∀ (q2 : Plane K Nat) (heap2 : List T),
          Plane.TranslateAt F M heap1 q v tr = some (q2, heap2) →
            Plane.deref heap2 q2 = some (pv.Translate F M v tr) ∧
            Plane.deref heap2 p = some pv ∧
            (∀ (ray : BasicRay K) (d0 : K) (st : Stats),
              Plane.IntersectAt F M heap2 p ray d0 st =
                Plane.IntersectAt F M heap p ray d0 st)) := by
  have main : (Plane.Copy M heap p).isSome = true ∧
      ∀ (q : Plane K Nat) (heap1 : List T), Plane.Copy M heap p = some (q, heap1) →
        q.Normal_Vector = p.Normal_Vector ∧ q.Distance = p.Distance ∧
        q.Clip = p.Clip ∧ q.BBox = p.BBox ∧
        (q.Trans = none ↔ p.Trans = none) ∧
        (∀ a : Nat, p.Trans = some a → q.Trans ≠ some a) ∧
        Plane.deref heap1 q = some pv ∧
        Plane.deref heap1 p = some pv ∧
        (∀ (v : Vector3d K) (tr : T) (q2 : Plane K Nat) (heap2 : List T),
          Plane.TranslateAt F M heap1 q v tr = some (q2, heap2) →
            Plane.deref heap2 p = some pv) := by
    rcases p with ⟨n, d, trp, clip, bb⟩
    cases trp with
    | none =>
      refine ⟨rfl, fun q heap1 h => ?_⟩
      simp only [Plane.Copy, Option.some.injEq, Prod.mk.injEq] at h
      obtain ⟨rfl, rfl⟩ := h
      refine ⟨rfl, rfl, rfl, rfl, Iff.rfl, fun a ha => by simp at ha, hp, hp,
        fun v tr q2 heap2 h2 => ?_⟩
      simp only [Plane.TranslateAt, Option.some.injEq, Prod.mk.injEq] at h2
      rw [← h2.2]
      exact hp
    | some a =>
      cases ht : heap[a]? with
      | none => simp [Plane.deref, ht] at hp
      | some t =>
        have ha : a < heap.length := (List.getElem?_eq_some_iff.mp ht).1
        rw [Plane.deref_of_some heap _ a t rfl ht] at hp
        simp only [Option.some.injEq] at hp
        subst hp
        refine ⟨by simp [Plane.Copy, ht], fun q heap1 h => ?_⟩
        simp only [Plane.Copy, ht, Option.some.injEq, Prod.mk.injEq] at h
        obtain ⟨rfl, rfl⟩ := h
        have hp1 : (heap ++ [M.Copy_Transform t])[a]? = some t := by
          rw [List.getElem?_append_left ha, ht]
        refine ⟨rfl, rfl, rfl, rfl, by simp, fun b hb => ?_, ?_, ?_, fun v tr q2 heap2 h2 => ?_⟩
        · intro hq
          simp only [Option.some.injEq] at hb hq
          omega
        · rw [Plane.deref_of_some _ _ heap.length t rfl (by simp [hC])]
        · rw [Plane.deref_of_some _ _ a t rfl hp1]
        · have hl : (heap ++ [M.Copy_Transform t])[heap.length]? = some (M.Copy_Transform t) := by
            simp
          simp only [Plane.TranslateAt, hl, Option.some.injEq, Prod.mk.injEq] at h2
          rw [← h2.2]
          rw [Plane.deref_of_some _ _ a t rfl
            (by rw [List.getElem?_set_ne (ne_of_gt ha), hp1])]
  refine ⟨main.1, fun q heap1 h => ?_⟩
  obtain ⟨h1, h2, h3, h4, h5, h6, h7, h8, h9⟩ := main.2 q heap1 h
  refine ⟨h1, h2, h3, h4, h5, h6, h7, h8, fun ray d0 st => ?_, fun P => ?_, fun v tr => ?_⟩
  · simp only [Plane.IntersectAt, h7, hp]
  · simp only [Plane.InsideAt, h7, hp]
  · have hq := Plane.TranslateAt_deref F M heap1 q pv v tr h7
    refine ⟨hq.1, fun q2 heap2 ht => ⟨hq.2 q2 heap2 ht, h9 v tr q2 heap2 ht, fun ray d0 st => ?_⟩⟩
    simp only [Plane.IntersectAt, h9 v tr q2 heap2 ht, hp]

/-- C16, evaluated: the object with the translation `(0,2,0)` at address 0 is
copied to an object with its transform at address 1; after `Translate` by
`(0,3,0)` on the copy, address 0 still holds `(0,2,0)` and the original is
hit by the down ray as before. -/
theorem Plane.Copy_independent_witness :
    Plane.deref [(⟨0, 2, 0⟩ : Vector3d ℚ), ⟨0, 5, 0⟩] movedObj = some movedPlane ∧
    Plane.IntersectAt sampleFrame translationOps [(⟨0, 2, 0⟩ : Vector3d ℚ), ⟨0, 5, 0⟩] movedObj
        downRay 0 zeroStats =
      Plane.IntersectAt sampleFrame translationOps [(⟨0, 2, 0⟩ : Vector3d ℚ)] movedObj
        downRay 0 zeroStats :=
  have h := ((Plane.Copy_independent sampleFrame translationOps (fun _ => rfl)
      [(⟨0, 2, 0⟩ : Vector3d ℚ)] movedObj movedPlane rfl).2
      { movedObj with Trans := some 1 } [⟨0, 2, 0⟩, ⟨0, 2, 0⟩] rfl).2.2.2.2.2.2.2.2.2.2
      ⟨0, 3, 0⟩ ⟨0, 3, 0⟩
  have g := h.2 (Plane.Compute_BBox sampleFrame { movedObj with Trans := some 1 })
      [⟨0, 2, 0⟩, ⟨0, 5, 0⟩]
      (by simp [Plane.TranslateAt, movedObj, translationOps, Vector3d.add]; norm_num)
  ⟨g.2.1, g.2.2 downRay 0 zeroStats⟩

end Properties

end pov
